import Mathlib

/-!
# Verification of the DGPS ITU-R M.823 stream decoder (`dgpsdec_mc.py`)

Shallow embedding of the decoder in `src/dgpsdec_mc.py`.  The input bit
stream is modelled as a `List Nat` (each element a received byte whose low
bit carries the bit value, exactly as the bytes handed to the program by the
socket).  Machine integers are `Nat` with explicit `&&& 0xffffffff` masking
where the source masks.  Python's arbitrary-precision signed integers that
can become negative (sign extension, cleanup thresholds) are modelled as
`Int`.

The floating-point scaling applied by the source purely for display
(`psc*0.02`, `lat*0.002747`, `mod_z*0.6`, `ecef/100`, `freq*0.1+190`,
together with `round(...)`) is not modelled: the emitted events and the
satellite store carry the exact integer values the source computes *before*
those display scalings (sign extension included, since it is integer
arithmetic in the source).  No claim under verification mentions a scaled
value.

Output is modelled as a trace of events (`Ev`), one per printed line, with
the fields each line carries.  Debug-only lines (the non-sync debug dump,
the `T{t}DEBUG add/del` lines) carry no decoded data and are not modelled.
-/

set_option autoImplicit false

namespace Dgps

/-- Number of set bits among the low 32 bits (the source counts ones in the
32-bit binary rendering of the word: `'{:032b}'.format(word & mask).count('1')`). -/
def popcountAux : Nat → Nat → Nat
  | 0, _ => 0
  | fuel + 1, n => n % 2 + popcountAux fuel (n / 2)

def popcount (n : Nat) : Nat := popcountAux 32 n

/-- `__calcpar_i`: the six M.823 parity bits of a 32-bit word, one parity bit
per XOR mask, packed MSB-first (`pc <<= 1; pc += popcount(word & mask) % 2`). -/
def calcpar_i (word : Nat) : Nat :=
  [0xBB1F3480, 0x5D8F9A40, 0xAEC7CD00, 0x5763E680, 0x6BB1F340, 0x8B7A89C0].foldl
    (fun pc m => pc * 2 + popcount (word &&& m) % 2) 0

/-- Polarity correction (`w ^ 0x3fffffc0 if w & 0x40000000 else w`), applied
to both `w1` and `w2` in the main loop and to `w1` in `__getdataframes`. -/
def correctWord (w : Nat) : Nat :=
  if w &&& 0x40000000 ≠ 0 then w ^^^ 0x3fffffc0 else w

/-- One bit step of the shift register (`w2 = (w2 << 1) & 0xffffffff`;
`if w1 & 0x20000000: w2 |= 1`; `w1 = ((w1 << 1) ^ (c & 0x01)) & 0xffffffff`).
Appears verbatim both in the main loop and in `__getdataframes`. -/
def shiftBit (w1 w2 c : Nat) : Nat × Nat :=
  let w2n := ((w2 <<< 1) &&& 0xffffffff) ||| (if w1 &&& 0x20000000 ≠ 0 then 1 else 0)
  let w1n := ((w1 <<< 1) ^^^ (c &&& 0x01)) &&& 0xffffffff
  (w1n, w2n)

/-- Shift a whole frame of bits through the register (`for c in msgin: ...`). -/
def shiftFrame (w1 w2 : Nat) (bits : List Nat) : Nat × Nat :=
  bits.foldl (fun p c => shiftBit p.1 p.2 c) (w1, w2)

/-- `__extractdata`, inner loop: walks the reversed field list, slicing each
positive-width field from the low bits of `v` (`v & (2**f - 1)`, then
`v >>= f`); a width of `0` yields a `none` slot and no shift. -/
def extractdataAux : Nat → List Nat → List (Option Nat)
  | _, [] => []
  | v, f :: rest =>
    if f > 0 then some (v &&& (2 ^ f - 1)) :: extractdataAux (v >>> f) rest
    else none :: extractdataAux v rest

/-- `__extractdata(v, fieldlist)`: MSB-first field extraction. -/
def extractdata (v : Nat) (fieldlist : List Nat) : List (Option Nat) :=
  (extractdataAux v fieldlist.reverse).reverse

/-- Result of `__getdataframes`: the updated shift words, the list of decoded
24-bit frames, its length `l`, the unread remainder of the bit stream, and
`ok = false` when the stream ran out inside a `get(30)` call (the real
`get` would then block forever; every bit still in the stream has been
handed to it). -/
structure GdfRes where
  w1 : Nat
  w2 : Nat
  ret : List Nat
  l : Nat
  rest : List Nat
  ok : Bool
  deriving DecidableEq, Repr

/-- `__getdataframes(s, w1, w2, maxnumframe)`: read up to `maxnumframe`
30-bit frames, shifting each bit through the register; append the 24 data
bits `(w1f & 0x3fffffc0) >> 6` of every frame whose parity
`__calcpar_i(w1f)` matches `w1 & 0x3f`, and stop at the first frame that
fails parity. -/
def getdataframes : Nat → Nat → Nat → List Nat → GdfRes
  | w1, w2, 0, bits => ⟨w1, w2, [], 0, bits, true⟩
  | w1, w2, n + 1, bits =>
    if bits.length < 30 then ⟨w1, w2, [], 0, [], false⟩
    else
      let p := shiftFrame w1 w2 (bits.take 30)
      let w1f := correctWord p.1
      if calcpar_i w1f = p.1 &&& 0x3f then
        let r := getdataframes p.1 p.2 n (bits.drop 30)
        ⟨r.w1, r.w2, ((w1f &&& 0x3fffffc0) >>> 6) :: r.ret, r.l + 1, r.rest, r.ok⟩
      else ⟨p.1, p.2, [], 0, bits.drop 30, true⟩

/-- Sign recovery for `psc` (`if psc >= 0x8000: psc = -(0x10000 - psc)`). -/
def signExtPsc (x : Nat) : Int :=
  if x ≥ 0x8000 then -((0x10000 : Int) - x) else x

/-- Sign recovery for `rrc` (`if rrc >= 0x80: rrc = -(0x100 - rrc)`). -/
def signExtRrc (x : Nat) : Int :=
  if x ≥ 0x80 then -((0x100 : Int) - x) else x

/-- Sign recovery for `lat`/`lon` in the type 7/27/35 handlers
(`if lat > 0x8000: lat = -(0x10000 - lat)` — note the strict `>`). -/
def signExtLatLon (x : Nat) : Int :=
  if x > 0x8000 then -((0x10000 : Int) - x) else x

/-- Sign recovery for the ECEF components in the type 3 handler
(`if ecefx > 0x80000000: ecefx = -(0x100000000 - ecefx)` — strict `>`). -/
def signExtEcef (x : Nat) : Int :=
  if x > 0x80000000 then -((0x100000000 : Int) - x) else x

/-- A satellite store entry: the tuple `(s, udre, psc, rrc, tcount, ncount)`
stored by `__process_type9.update` (`psc`/`rrc` kept as the sign-extended
integers, before display scaling). -/
structure SatVal where
  s : Nat
  udre : Nat
  psc : Int
  rrc : Int
  tcount : Nat
  ncount : Nat
  deriving DecidableEq, Repr

/-- The store dictionary `self.all`, keyed by `(satid, iod)`; the list keeps
Python's dict insertion order (existing keys are overwritten in place, new
keys are appended). -/
abbrev Store := List ((Nat × Nat) × SatVal)

/-- Overwrite the entry at `key` in place, or append a new one — Python dict
assignment `self.all[key] = v`. -/
def storeSet : Store → (Nat × Nat) → SatVal → Store
  | [], key, v => [(key, v)]
  | (k, w) :: rest, key, v =>
    if k = key then (key, v) :: rest else (k, w) :: storeSet rest key v

/-- `__process_type9` instance state: the dict and the `removeold` horizon
(default 5000 bit ticks). -/
structure ProcessType9 where
  all : Store
  removeold : Nat
  deriving DecidableEq, Repr

/-- `__process_type9.update`: set or overwrite the entry at `(satid, iod)`
with the supplied fields and tick `tcount`; a fresh entry gets
`ncount = 1`, an existing one `d[5] + 1`. -/
def ProcessType9.update (p : ProcessType9) (satid : Nat) (s : Nat) (udre : Nat)
    (psc rrc : Int) (iod tcount : Nat) : ProcessType9 :=
  let key := (satid, iod)
  let ncount :=
    match p.all.lookup key with
    | none => 1
    | some d => d.ncount + 1
  { p with all := storeSet p.all key ⟨s, udre, psc, rrc, tcount, ncount⟩ }

/-- `__process_type9.cleanup(cnt, msgtype)`: delete every entry whose stored
tick is `< cnt - removeold` (Python integer arithmetic, hence `Int`); the
copy/`changed` dance in the source nets out to exactly this filter. -/
def ProcessType9.cleanup (p : ProcessType9) (cnt : Nat) : ProcessType9 :=
  { p with
    all := p.all.filter fun kv =>
      !decide ((kv.2.tcount : Int) < (cnt : Int) - (p.removeold : Int)) }

/-- One event per printed line (debug-only lines omitted; fields carry the
pre-display-scaling integer values, see the module docstring). -/
inductive Ev where
  /-- `S count [w1t w2t] msgtype stationid mod_z seq msglen stationhealth`
  (`mod_z` carried raw, before the `*0.6` display scaling). -/
  | s (count msgtype stationid mod_z seq msglen stationhealth : Nat)
  /-- `type N message received: msglen [hex frames] num` (carries the frame
  count `l`; the printed record count is derived from `l`). -/
  | recv (msgtype msglen l : Nat)
  /-- The short dump lines with no frame list: type 6 always, and types 5/36
  with `msglen == 0`. -/
  | recvShort (msgtype msglen : Nat)
  /-- `T3 x y z` (sign-extended ECEF, before the `/100`). -/
  | t3 (x y z : Int)
  /-- `T5 satid iod health cno enable new loss ttu reserved unassigned`. -/
  | t5 (satid iod health cno enable new loss ttu reserved unassigned : Nat)
  /-- `T1Sat`/`T9Sat` per-satellite record (psc/rrc sign-extended). -/
  | sat (msgtype satid s udre : Nat) (psc rrc : Int) (iod : Nat)
  /-- `T31Sat` per-satellite record (GLONASS `r`,`tb` instead of IOD). -/
  | sat31 (satid s udre : Nat) (psc rrc : Int) (r tb : Nat)
  /-- `T7`/`T35` station information record. -/
  | t7 (msgtype : Nat) (lat lon : Int) (brange freq health statid : Nat)
      (bitrate : Int) (modmode synctype bcoding : Nat)
  /-- `T27` radio almanac record (`name` as its nine 7-bit codes). -/
  | t27 (lat lon : Int) (refid1 refid2 freq op : Nat) (bitrate : Int)
      (dat r bc integr const : Nat) (name : List Nat)
  /-- `T36` text message (byte values after the Cyrillic remap). -/
  | t36 (chars : List Nat)
  /-- `printall`: the store contents dumped after a type 1/9/31 batch. -/
  | storeDump (msgtype : Nat) (entries : Store)
  /-- `unknown type N`. -/
  | unknown (msgtype : Nat)
  deriving DecidableEq, Repr

/-- Decoder state: the two shift words, the global bit counter, the two
satellite stores and their cleanup timestamps. -/
structure DecState where
  w1 : Nat
  w2 : Nat
  count : Nat
  t9 : ProcessType9
  t31 : ProcessType9
  lastt9cleanup : Nat
  lastt31cleanup : Nat
  deriving DecidableEq, Repr

/-- Result of one main-loop iteration (or of a message handler): new state,
unread stream, lines emitted, and `ok = false` when the iteration starved a
blocking `get` (the real program would hang there forever; the state fields
assigned from the never-returning call keep their old values). -/
structure StepOut where
  st : DecState
  rest : List Nat
  evs : List Ev
  ok : Bool
  deriving DecidableEq, Repr

/-- Type 5 per-frame record: fields `(1,5,1,3,5,1,1,1,4,2)`, `C/No` offset by
24 when nonzero, `TimeToUnhealthy` scaled by 300. -/
def decodeT5 (m : Nat) : Ev :=
  match extractdata m [1, 5, 1, 3, 5, 1, 1, 1, 4, 2] with
  | [some reserved, some satid, some iodl, some health, some cn0, some he,
     some nnd, some losw, some ttu, some una] =>
    .t5 satid iodl health (if cn0 > 0 then cn0 + 24 else cn0) he nnd losw
      (ttu * 300) reserved una
  | _ => .t5 0 0 0 0 0 0 0 0 0 0  -- unreachable: ten positive widths

/-- Decoded type 1/9 per-satellite fields. -/
structure SatDec where
  s : Nat
  udre : Nat
  satid : Nat
  psc : Int
  rrc : Int
  iod : Nat
  deriving DecidableEq, Repr

/-- Decoded type 31 per-satellite fields (`r`,`tb` in place of the IOD). -/
structure SatDec31 where
  s : Nat
  udre : Nat
  satid : Nat
  psc : Int
  rrc : Int
  r : Nat
  tb : Nat
  deriving DecidableEq, Repr

/-- Satellite record `msgt1` of a type 1 message: group offset `5*(i/3)`,
layout selected by `i % 3`, fields sliced by `__extractdata` and `psc`/`rrc`
sign-extended. -/
def decodeSatT1 (fr : List Nat) (i : Nat) : SatDec :=
  let d3 := i / 3
  let offset := d3 * 5
  let r3 := i % 3
  let mf : Nat × List Nat :=
    if r3 = 0 then
      ((fr.getD (0 + offset) 0) <<< 24 ||| fr.getD (1 + offset) 0,
       [1, 2, 5, 16, 8, 8, 8])
    else if r3 = 1 then
      ((fr.getD (1 + offset) 0) <<< 48 ||| (fr.getD (2 + offset) 0) <<< 24 |||
         fr.getD (3 + offset) 0,
       [1, 2, 5, 16, 8, 8, 16])
    else
      ((fr.getD (3 + offset) 0) <<< 24 ||| fr.getD (4 + offset) 0,
       [1, 2, 5, 16, 8, 8, 0])
  match extractdata mf.1 mf.2 with
  | [some s, some udre, some satid, some psc, some rrc, some iod, _] =>
    ⟨s, udre, satid, signExtPsc psc, signExtRrc rrc, iod⟩
  | _ => ⟨0, 0, 0, 0, 0, 0⟩  -- unreachable: seven slots always produced

/-- Satellite record `msgt9` of a type 9 message (the source repeats the
type 1 layout with fixed indices `0`/`1`/`2`). -/
def decodeSatT9 (fr : List Nat) (i : Nat) : SatDec :=
  let mf : Nat × List Nat :=
    if i = 0 then
      ((fr.getD 0 0) <<< 24 ||| fr.getD 1 0, [1, 2, 5, 16, 8, 8, 8])
    else if i = 1 then
      ((fr.getD 1 0) <<< 48 ||| (fr.getD 2 0) <<< 24 ||| fr.getD 3 0,
       [1, 2, 5, 16, 8, 8, 16])
    else
      ((fr.getD 3 0) <<< 24 ||| fr.getD 4 0, [1, 2, 5, 16, 8, 8, 0])
  match extractdata mf.1 mf.2 with
  | [some s, some udre, some satid, some psc, some rrc, some iod, _] =>
    ⟨s, udre, satid, signExtPsc psc, signExtRrc rrc, iod⟩
  | _ => ⟨0, 0, 0, 0, 0, 0⟩  -- unreachable

/-- Satellite record `msgt31` of a type 31 message: as type 1, with the final
IOD field replaced by `(1, 7)` carrying `r`,`tb`. -/
def decodeSatT31 (fr : List Nat) (i : Nat) : SatDec31 :=
  let d3 := i / 3
  let offset := d3 * 5
  let r3 := i % 3
  let mf : Nat × List Nat :=
    if r3 = 0 then
      ((fr.getD (0 + offset) 0) <<< 24 ||| fr.getD (1 + offset) 0,
       [1, 2, 5, 16, 8, 1, 7, 8])
    else if r3 = 1 then
      ((fr.getD (1 + offset) 0) <<< 48 ||| (fr.getD (2 + offset) 0) <<< 24 |||
         fr.getD (3 + offset) 0,
       [1, 2, 5, 16, 8, 1, 7, 16])
    else
      ((fr.getD (3 + offset) 0) <<< 24 ||| fr.getD (4 + offset) 0,
       [1, 2, 5, 16, 8, 1, 7, 0])
  match extractdata mf.1 mf.2 with
  | [some s, some udre, some satid, some psc, some rrc, some r, some tb, _] =>
    ⟨s, udre, satid, signExtPsc psc, signExtRrc rrc, r, tb⟩
  | _ => ⟨0, 0, 0, 0, 0, 0, 0⟩  -- unreachable

/-- Type 7/35 bitrate table `(25, 50, 100, -3, 150, 200, -6, -7)`. -/
def bitrateT7 (b : Nat) : Int := [(25 : Int), 50, 100, -3, 150, 200, -6, -7].getD b 0

/-- Type 27 bitrate table `(25, 50, 100, 200, -4, -5, -6, -7)`. -/
def bitrateT27 (b : Nat) : Int := [(25 : Int), 50, 100, 200, -4, -5, -6, -7].getD b 0

/-- Station record `i` of a type 7/35 message: three frames concatenated,
fields `(16,16,10,12,3,9,3,1,1,1)`, `lat`/`lon` sign-extended with the
strict-`>` test, bitrate looked up. -/
def decodeT7 (msgtype : Nat) (fr : List Nat) (i : Nat) : Ev :=
  let m := (fr.getD (3 * i) 0) <<< 48 ||| (fr.getD (3 * i + 1) 0) <<< 24 |||
    fr.getD (3 * i + 2) 0
  match extractdata m [16, 16, 10, 12, 3, 9, 3, 1, 1, 1] with
  | [some lat, some lon, some brange, some freq, some health, some statid,
     some bitrate, some modmode, some synctype, some bcoding] =>
    .t7 msgtype (signExtLatLon lat) (signExtLatLon lon) brange freq health
      statid (bitrateT7 bitrate) modmode synctype bcoding
  | _ => .t7 msgtype 0 0 0 0 0 0 0 0 0 0  -- unreachable

/-- Almanac record `i` of a type 27 message: six frames folded into a
192-bit value, thirteen fields, the 63-bit text sliced into nine 7-bit
codes. -/
def decodeT27 (fr : List Nat) (i : Nat) : Ev :=
  let m := (List.range 6).foldl (fun m j => (m <<< 24) ||| fr.getD (6 * i + j) 0) 0
  match extractdata m [16, 16, 10, 12, 2, 10, 3, 1, 1, 1, 2, 7, 63] with
  | [some lat, some lon, some refid1, some freq, some op, some refid2,
     some bitrate, some dat, some rbit, some bc, some integr, some cst,
     some txt] =>
    let name := (extractdata txt (List.replicate 9 7)).map (·.getD 0)
    .t27 (signExtLatLon lat) (signExtLatLon lon) refid1 refid2 freq op
      (bitrateT27 bitrate) dat rbit bc integr cst name
  | _ => .t27 0 0 0 0 0 0 0 0 0 0 0 0 []  -- unreachable

/-! ## Per-type body handlers

Each handler models one `if msgtype == N:` block of the main loop
(everything after the `S` status line has been printed).  `bits` is the
unread remainder of the stream; a `__getdataframes` call that cannot be
served in full makes the real program block forever inside `get(30)`,
modelled by `ok = false` with every remaining bit consumed and the state
assignments of the hanging call not performed. -/

/-- The shared body-read pattern of the type 3/5/7/27/31/35/36 and 1/9
blocks: run `__getdataframes` over up to `n` frames, then hand the result
to the per-type continuation `k` (which yields the updated state and the
lines printed).  `starveEvs` is what was already printed before a read that
never returns. -/
def withBody (n : Nat) (st : DecState) (bits : List Nat) (starveEvs : List Ev)
    (k : GdfRes → DecState × List Ev) : StepOut :=
  let r := getdataframes st.w1 st.w2 n bits
  if !r.ok then ⟨st, [], starveEvs, false⟩
  else ⟨(k r).1, r.rest, (k r).2, true⟩

/-- The `T3` line of a type 3 message: emitted only when all four frames
arrived (`numtype3 = l/4 = 1`); the four frames are concatenated into a
96-bit value, split `(32, 32, 32)` and sign-extended. -/
def t3Events (ret : List Nat) (l : Nat) : List Ev :=
  if l / 4 = 1 then
    match ret with
    | [f0, f1, f2, f3] =>
      let m := f0 <<< 72 ||| f1 <<< 48 ||| f2 <<< 24 ||| f3
      match extractdata m [32, 32, 32] with
      | [some x, some y, some z] =>
        [Ev.t3 (signExtEcef x) (signExtEcef y) (signExtEcef z)]
      | _ => []
    | _ => []
  else []

/-- Type 3 block: station ECEF location; `msglen` must be 4. -/
def handleT3 (msglen : Nat) (st : DecState) (bits : List Nat) : StepOut :=
  if msglen ≠ 4 then ⟨st, bits, [], true⟩
  else withBody msglen st bits [] fun r =>
    ({ st with w1 := r.w1, w2 := r.w2, count := st.count + r.l * 30 },
      Ev.recv 3 msglen r.l :: t3Events r.ret r.l)

/-- Type 6 block: null message; `msglen` 0 or 1; the dump line is printed
before the body read, and `count` is advanced by a flat 30 after it. -/
def handleT6 (msglen : Nat) (st : DecState) (bits : List Nat) : StepOut :=
  if ¬(msglen = 0 ∨ msglen = 1) then ⟨st, bits, [], true⟩
  else if msglen = 0 then ⟨st, bits, [Ev.recvShort 6 0], true⟩
  else withBody msglen st bits [Ev.recvShort 6 msglen] fun r =>
    ({ st with w1 := r.w1, w2 := r.w2, count := st.count + 30 },
      [Ev.recvShort 6 msglen])

/-- Type 5 block: GPS constellation health, one record per intact frame. -/
def handleT5 (msglen : Nat) (st : DecState) (bits : List Nat) : StepOut :=
  if msglen = 0 then ⟨st, bits, [Ev.recvShort 5 0], true⟩
  else withBody msglen st bits [] fun r =>
    ({ st with w1 := r.w1, w2 := r.w2, count := st.count + r.l * 30 },
      Ev.recv 5 msglen r.l :: r.ret.map decodeT5)

/-- The `T36` line of a type 36 message: printed only when at least one
frame arrived; three 8-bit characters per frame, bytes ≥ 128 remapped to
Cyrillic code points (`x + (0x410 - 0x80)`). -/
def t36Tail (ret : List Nat) : List Ev :=
  if ret = [] then []
  else
    let chars := (ret.map fun m => (extractdata m [8, 8, 8]).map (·.getD 0)).flatten
    [Ev.t36 (chars.map fun x => if x < 128 then x else x + (0x410 - 0x80))]

/-- Type 36 block: GLONASS special message. -/
def handleT36 (msglen : Nat) (st : DecState) (bits : List Nat) : StepOut :=
  if msglen = 0 then ⟨st, bits, [Ev.recvShort 36 0], true⟩
  else withBody msglen st bits [] fun r =>
    ({ st with w1 := r.w1, w2 := r.w2, count := st.count + r.l * 30 },
      Ev.recv 36 msglen r.l :: t36Tail r.ret)

/-- Type 7/35 block: station information; `msglen` multiple of 3, one
record per group of three intact frames. -/
def handleT7 (msgtype msglen : Nat) (st : DecState) (bits : List Nat) : StepOut :=
  if msglen % 3 ≠ 0 then ⟨st, bits, [], true⟩
  else withBody msglen st bits [] fun r =>
    ({ st with w1 := r.w1, w2 := r.w2, count := st.count + r.l * 30 },
      Ev.recv msgtype msglen r.l ::
        (List.range (r.l / 3)).map (decodeT7 msgtype r.ret))

/-- Type 1 block: GPS corrections; `msglen mod 5 ∈ {0, 2, 4}`;
`3·(l/5) + [0,0,1,1,2][l mod 5]` satellite records decoded from the `l`
intact frames, each also updating the GPS store; store dump and the
1000-tick cleanup cadence afterwards. -/
def handleT1 (msglen : Nat) (st : DecState) (bits : List Nat) : StepOut :=
  if ¬(msglen % 5 = 0 ∨ msglen % 5 = 2 ∨ msglen % 5 = 4) then ⟨st, bits, [], true⟩
  else withBody msglen st bits [] fun r =>
    let count2 := st.count + r.l * 30
    let num := r.l / 5 * 3 + [0, 0, 1, 1, 2].getD (r.l % 5) 0
    let recs := (List.range num).map (decodeSatT1 r.ret)
    let t9a := recs.foldl
      (fun acc d => acc.update d.satid d.s d.udre d.psc d.rrc d.iod count2) st.t9
    let doClean := decide ((count2 : Int) - (st.lastt9cleanup : Int) > 1000)
    let st2 :=
      { st with
        w1 := r.w1
        w2 := r.w2
        count := count2
        t9 := if doClean then t9a.cleanup count2 else t9a
        lastt9cleanup := if doClean then count2 else st.lastt9cleanup }
    (st2,
      Ev.recv 1 msglen r.l ::
        recs.map (fun d => Ev.sat 1 d.satid d.s d.udre d.psc d.rrc d.iod) ++
        [Ev.storeDump 1 t9a.all])

/-- Type 9 block: GPS corrections; `msglen ∈ {2, 4, 5}`;
`[0,0,1,1,2,3][l]` satellite records, same store handling as type 1. -/
def handleT9 (msglen : Nat) (st : DecState) (bits : List Nat) : StepOut :=
  if ¬(msglen = 2 ∨ msglen = 4 ∨ msglen = 5) then ⟨st, bits, [], true⟩
  else withBody msglen st bits [] fun r =>
    let count2 := st.count + r.l * 30
    let num := [0, 0, 1, 1, 2, 3].getD r.l 0
    let recs := (List.range num).map (decodeSatT9 r.ret)
    let t9a := recs.foldl
      (fun acc d => acc.update d.satid d.s d.udre d.psc d.rrc d.iod count2) st.t9
    let doClean := decide ((count2 : Int) - (st.lastt9cleanup : Int) > 1000)
    let st2 :=
      { st with
        w1 := r.w1
        w2 := r.w2
        count := count2
        t9 := if doClean then t9a.cleanup count2 else t9a
        lastt9cleanup := if doClean then count2 else st.lastt9cleanup }
    (st2,
      Ev.recv 9 msglen r.l ::
        recs.map (fun d => Ev.sat 9 d.satid d.s d.udre d.psc d.rrc d.iod) ++
        [Ev.storeDump 9 t9a.all])

/-- Type 31 block: GLONASS corrections; as type 1 but with the GLONASS
store and the `r`,`tb` key. -/
def handleT31 (msglen : Nat) (st : DecState) (bits : List Nat) : StepOut :=
  if ¬(msglen % 5 = 0 ∨ msglen % 5 = 2 ∨ msglen % 5 = 4) then ⟨st, bits, [], true⟩
  else withBody msglen st bits [] fun r =>
    let count2 := st.count + r.l * 30
    let num := r.l / 5 * 3 + [0, 0, 1, 1, 2].getD (r.l % 5) 0
    let recs := (List.range num).map (decodeSatT31 r.ret)
    let t31a := recs.foldl
      (fun acc d => acc.update d.satid d.s d.udre d.psc d.rrc d.tb count2) st.t31
    let doClean := decide ((count2 : Int) - (st.lastt31cleanup : Int) > 1000)
    let st2 :=
      { st with
        w1 := r.w1
        w2 := r.w2
        count := count2
        t31 := if doClean then t31a.cleanup count2 else t31a
        lastt31cleanup := if doClean then count2 else st.lastt31cleanup }
    (st2,
      Ev.recv 31 msglen r.l ::
        recs.map (fun d => Ev.sat31 d.satid d.s d.udre d.psc d.rrc d.r d.tb) ++
        [Ev.storeDump 31 t31a.all])

/-- Type 27 block: radio almanac; `msglen` multiple of 6, one record per
group of six intact frames. -/
def handleT27 (msglen : Nat) (st : DecState) (bits : List Nat) : StepOut :=
  if msglen % 6 ≠ 0 then ⟨st, bits, [], true⟩
  else withBody msglen st bits [] fun r =>
    ({ st with w1 := r.w1, w2 := r.w2, count := st.count + r.l * 30 },
      Ev.recv 27 msglen r.l :: (List.range (r.l / 6)).map (decodeT27 r.ret))

/-- The message-type dispatch, in the source order of the `if msgtype == N`
chain; unknown types print `unknown type N` and consume no body bits. -/
def handleMsg (msgtype msglen : Nat) (st : DecState) (bits : List Nat) : StepOut :=
  if msgtype = 3 then handleT3 msglen st bits
  else if msgtype = 6 then handleT6 msglen st bits
  else if msgtype = 5 then handleT5 msglen st bits
  else if msgtype = 36 then handleT36 msglen st bits
  else if msgtype = 7 ∨ msgtype = 35 then handleT7 msgtype msglen st bits
  else if msgtype = 1 then handleT1 msglen st bits
  else if msgtype = 9 then handleT9 msglen st bits
  else if msgtype = 31 then handleT31 msglen st bits
  else if msgtype = 27 then handleT27 msglen st bits
  else ⟨st, bits, [Ev.unknown msgtype], true⟩

/-- One iteration of the main `while True` loop, given the bit `c` obtained
from `get(1)` and the unread remainder `rest`: advance the counter, shift,
apply polarity correction, gate on parity of both words, look for the sync
pattern, extract the header fields, emit the `S` line and dispatch. -/
def decodeStep (st : DecState) (c : Nat) (rest : List Nat) : StepOut :=
  let count := st.count + 1
  let p := shiftBit st.w1 st.w2 c
  let w1 := p.1
  let w2 := p.2
  let w1f := correctWord w1
  let w2f := correctWord w2
  let st1 : DecState := { st with w1 := w1, w2 := w2, count := count }
  if calcpar_i w1f ≠ w1 &&& 0x3f ∨ calcpar_i w2f ≠ w2 &&& 0x3f then
    ⟨st1, rest, [], true⟩
  else
    let w1r := (w1f &&& 0x3fffffc0) >>> 6
    let w2r := (w2f &&& 0x3fffffc0) >>> 6
    if w2r >>> 16 = 0x66 then
      match extractdata w2r [6, 10], extractdata w1r [13, 3, 5, 3] with
      | [some msgtype, some stationid], [some mod_z, some seq, some msglen, some sth] =>
        let out := handleMsg msgtype msglen st1 rest
        ⟨out.st, out.rest, Ev.s count msgtype stationid mod_z seq msglen sth :: out.evs,
          out.ok⟩
      | _, _ => ⟨st1, rest, [], true⟩  -- unreachable: positive widths
    else ⟨st1, rest, [], true⟩

/-- Result of a whole run: final state, emitted trace, and whether the run
ended with the stream cleanly exhausted at the top-of-loop `get(1)`
(`ok = false` means a handler starved mid-message). -/
structure RunRes where
  st : DecState
  evs : List Ev
  ok : Bool
  deriving DecidableEq, Repr

/-- The main loop, fuelled (each iteration consumes at least one bit, so
`bits.length + 1` fuel always suffices).  An empty stream at the
top-of-loop `get(1)` ends the run: the real program would block there
forever, producing no further output. -/
def runLoop : Nat → DecState → List Nat → RunRes
  | 0, st, _ => ⟨st, [], false⟩
  | _ + 1, st, [] => ⟨st, [], true⟩
  | fuel + 1, st, c :: rest =>
    let so := decodeStep st c rest
    if so.ok then
      let r := runLoop fuel so.st so.rest
      ⟨r.st, so.evs ++ r.evs, r.ok⟩
    else ⟨so.st, so.evs, false⟩

/-- Initial decoder state (`w1 = w2 = count = 0`, both stores fresh with the
default `removeold = 5000`, cleanup timestamps 0). -/
def initState : DecState :=
  ⟨0, 0, 0, ⟨[], 5000⟩, ⟨[], 5000⟩, 0, 0⟩

/-- Run the loop from a given state over a finite bit stream (fuel
`bits.length + 1` always suffices: every iteration consumes at least one
bit). -/
def runFrom (st : DecState) (bits : List Nat) : RunRes :=
  runLoop (bits.length + 1) st bits

/-- Run the decoder over a finite bit stream from the initial state. -/
def runDecoder (bits : List Nat) : RunRes :=
  runFrom initState bits

/-! ## The `getinbits` bit source (`dgpsdec_mc.getinbits`) -/

/-- `getinbits` instance state: the unpacked datagram buffer with its read
pointer and size, plus the datagrams the socket still has to deliver.  An
empty `dgs` models a closed transport: every further `recv` is a
zero-length read. -/
structure BitSrc where
  buff : List Nat
  bufptr : Nat
  bufsize : Nat
  dgs : List (List Nat)
  deriving DecidableEq, Repr

/-- Copy as much as possible from the buffer
(`nbits = min(bits2get, bufsize - bufptr)`; `retbuf += buff[bufptr:bufptr+nbits]`;
`bufptr += nbits`; `bits2get -= nbits`). -/
def takeChunk (s : BitSrc) (bits2get : Nat) (retbuf : List Nat) :
    BitSrc × Nat × List Nat :=
  let nbits := min bits2get (s.bufsize - s.bufptr)
  ({ s with bufptr := s.bufptr + nbits }, bits2get - nbits,
    retbuf ++ (s.buff.drop s.bufptr).take nbits)

/-- `getinbits.get(n)`: the `while True` loop, fuelled by the number of loop
iterations; `none` means the loop has not returned within `fuel` iterations
(with a closed transport it never returns).  A zero-length read
(`newbl == 0`) is retried (`continue`); the function returns only at
`bits2get == 0`. -/
def getinbits.get : Nat → BitSrc → Nat → List Nat → Option (List Nat × BitSrc)
  | 0, _, _, _ => none
  | fuel + 1, s, bits2get, retbuf =>
    if s.bufptr = s.bufsize then
      match s.dgs with
      | [] => getinbits.get fuel s bits2get retbuf  -- zero-length read: try again
      | d :: rest =>
        if d.length = 0 then getinbits.get fuel { s with dgs := rest } bits2get retbuf
        else
          let t := takeChunk ⟨d, 0, d.length, rest⟩ bits2get retbuf
          if t.2.1 = 0 then some (t.2.2, t.1)
          else getinbits.get fuel t.1 t.2.1 t.2.2
    else
      let t := takeChunk s bits2get retbuf
      if t.2.1 = 0 then some (t.2.2, t.1)
      else getinbits.get fuel t.1 t.2.1 t.2.2

/-! ## Observables of the trace -/

/-- Number of `S` status lines in a trace. -/
def countS : List Ev → Nat
  | [] => 0
  | Ev.s _ _ _ _ _ _ _ :: r => countS r + 1
  | _ :: r => countS r

/-- Number of per-satellite records (`T1Sat`/`T9Sat`/`T31Sat` lines) in a
trace. -/
def countSat : List Ev → Nat
  | [] => 0
  | Ev.sat _ _ _ _ _ _ _ :: r => countSat r + 1
  | Ev.sat31 _ _ _ _ _ _ _ :: r => countSat r + 1
  | _ :: r => countSat r

/-- Number of body reads in a trace that stopped short of their requested
frame count, i.e. ended in a parity failure (type 6 reads print no frame
list and are excluded — their 30 bits are counted unconditionally). -/
def failsOf : List Ev → Nat
  | [] => 0
  | Ev.recv _ msglen l :: r => (if l < msglen then 1 else 0) + failsOf r
  | _ :: r => failsOf r

/-! ## Specification-side frame-reader description (for the refinement claim)

`frameSeq` follows the specification's words, not the source: it evaluates
the chain of up-to-`n` candidate frames, recording for each its 24 data
bits and whether it passes parity, without ever stopping; the spec's
"longest prefix of frames that each pass parity" is then its
`takeWhile`. -/

/-- The first `n` candidate frames of the stream, each with its decoded data
bits and parity verdict, chaining the shift register through all of them. -/
def frameSeq : Nat → Nat → Nat → List Nat → List (Nat × Bool)
  | 0, _, _, _ => []
  | n + 1, w1, w2, bits =>
    if bits.length < 30 then []
    else
      let p := shiftFrame w1 w2 (bits.take 30)
      let w1f := correctWord p.1
      ((w1f &&& 0x3fffffc0) >>> 6, decide (calcpar_i w1f = p.1 &&& 0x3f)) ::
        frameSeq n p.1 p.2 (bits.drop 30)

/-! ## Concrete test vectors

Encoders used only to build concrete input streams for counterexamples and
witnesses (they are the inverse of the decoder's parity/polarity handling:
parity is computed over the polarity-corrected word, whose low six bits the
parity masks ignore, and the stored data bits are inverted when the
previous word's last bit — the word's pre-bit 30 — is 1). -/

/-- The `n` low bits of `w`, most significant first, as stream bytes. -/
def bitsOfWord (w n : Nat) : List Nat :=
  (List.range n).map fun i => (w >>> (n - 1 - i)) &&& 1

/-- Encode one 30-bit frame: `prevLow2` is the low two bits of the previous
raw word (they become the pre-bits 31/30 of this word in the shift
register), `data24` the intended 24 data bits. -/
def encodeFrame (prevLow2 data24 : Nat) : Nat :=
  let pre := (((prevLow2 >>> 1) &&& 1) <<< 31) ||| ((prevLow2 &&& 1) <<< 30)
  let par := calcpar_i (pre ||| (data24 <<< 6))
  let stored := if prevLow2 &&& 1 = 1 then data24 ^^^ 0xffffff else data24
  (stored <<< 6) ||| par

/-- Header word 1 (lands in `w2`): preamble `0x66`, message type, station 0. -/
def hdrA (msgtype : Nat) : Nat :=
  encodeFrame 0 ((0x66 <<< 16) ||| (msgtype <<< 10) ||| 0)

/-- Header word 2 (lands in `w1`): `mod_z = 0`, `seq = 0`, the given
`msglen`, `stationhealth = 0`. -/
def hdrB (msgtype msglen : Nat) : Nat :=
  encodeFrame (hdrA msgtype &&& 3) (msglen <<< 3)

/-- A complete type 9, `msglen = 2` message (one all-zero satellite record):
two leading zero bits, the two header words, two body frames. -/
def msg9 : List Nat :=
  [0, 0] ++ bitsOfWord (hdrA 9) 30 ++ bitsOfWord (hdrB 9 2) 30 ++
    bitsOfWord (encodeFrame (hdrB 9 2 &&& 3) 0) 30 ++
    bitsOfWord (encodeFrame (encodeFrame (hdrB 9 2 &&& 3) 0 &&& 3) 0) 30

/-- Eviction scenario stream: the type 9 message, no-op zero ticks, and the
same message again, timed so the two store updates are exactly 6000 bit
ticks apart (each message records its update 122 ticks after its first
bit). -/
def evictionBits : List Nat := msg9 ++ List.replicate 5878 0 ++ msg9

/-- A type 3 header (`msglen = 4`) followed by a single body frame whose
data bit 20 has been flipped, so the frame fails parity: 30 bits are
consumed by the body read but `count` is advanced by 0. -/
def badBodyBits : List Nat :=
  [0, 0] ++ bitsOfWord (hdrA 3) 30 ++ bitsOfWord (hdrB 3 4) 30 ++
    bitsOfWord (encodeFrame (hdrB 3 4 &&& 3) 0 ^^^ (1 <<< 20)) 30

/-! ## Frame-reader lemmas -/

/-- A body read served a full stream slice never starves. -/
theorem getdataframes_ok_of_length :
    ∀ (n w1 w2 : Nat) (bits : List Nat), 30 * n ≤ bits.length →
      (getdataframes w1 w2 n bits).ok = true := by
  intro n
  induction n with
  | zero => intro w1 w2 bits _; rfl
  | succ n ih =>
    intro w1 w2 bits h
    have h30 : ¬ bits.length < 30 := by omega
    simp only [getdataframes, if_neg h30]
    split
    · exact ih _ _ _ (by simp [List.length_drop]; omega)
    · rfl

/-- A body read never hands back more stream than it was given. -/
theorem getdataframes_rest_le :
    ∀ (n w1 w2 : Nat) (bits : List Nat),
      (getdataframes w1 w2 n bits).rest.length ≤ bits.length := by
  intro n
  induction n with
  | zero => intro w1 w2 bits; exact Nat.le_refl _
  | succ n ih =>
    intro w1 w2 bits
    simp only [getdataframes]
    split
    · simp
    · split
      · exact Nat.le_trans (ih _ _ _) (by simp [List.length_drop])
      · simp [List.length_drop]

/-- `l` never exceeds the requested frame count. -/
theorem getdataframes_l_le :
    ∀ (n w1 w2 : Nat) (bits : List Nat), (getdataframes w1 w2 n bits).l ≤ n := by
  intro n
  induction n with
  | zero => intro w1 w2 bits; exact Nat.le_refl _
  | succ n ih =>
    intro w1 w2 bits
    simp only [getdataframes]
    split
    · simp
    · split
      · exact Nat.succ_le_succ (ih _ _ _)
      · simp

/-- Stream accounting of a non-starved body read: the read consumed
`30 * l` bits, plus another 30 for the frame that failed parity when it
stopped short of `n`. -/
theorem getdataframes_consumed :
    ∀ (n w1 w2 : Nat) (bits : List Nat), (getdataframes w1 w2 n bits).ok = true →
      bits.length =
        (getdataframes w1 w2 n bits).rest.length +
          30 * (getdataframes w1 w2 n bits).l +
          (if (getdataframes w1 w2 n bits).l < n then 30 else 0) := by
  intro n
  induction n with
  | zero => intro w1 w2 bits _; simp [getdataframes]
  | succ n ih =>
    intro w1 w2 bits h
    simp only [getdataframes] at h ⊢
    by_cases h30 : bits.length < 30
    · rw [if_pos h30] at h; exact absurd h (by simp)
    · rw [if_neg h30] at h ⊢
      by_cases hp : calcpar_i (correctWord (shiftFrame w1 w2 (bits.take 30)).1) =
          (shiftFrame w1 w2 (bits.take 30)).1 &&& 0x3f
      · rw [if_pos hp] at h ⊢
        dsimp only at h ⊢
        have hlen : (bits.drop 30).length = bits.length - 30 := by simp
        have hrec := ih _ _ _ h
        have hll := getdataframes_l_le n (shiftFrame w1 w2 (bits.take 30)).1
          (shiftFrame w1 w2 (bits.take 30)).2 (bits.drop 30)
        by_cases hlt : (getdataframes (shiftFrame w1 w2 (bits.take 30)).1
            (shiftFrame w1 w2 (bits.take 30)).2 n (bits.drop 30)).l < n
        · rw [if_pos hlt] at hrec
          rw [if_pos (by omega)]
          omega
        · rw [if_neg hlt] at hrec
          rw [if_neg (by omega)]
          omega
      · rw [if_neg hp] at h ⊢
        dsimp only at h ⊢
        have hlen : (bits.drop 30).length = bits.length - 30 := by simp
        rw [if_pos (by omega : (0 : Nat) < n + 1)]
        omega

/-- A non-starved body read is insensitive to stream appended after the
bits it consumed. -/
theorem getdataframes_append :
    ∀ (n w1 w2 : Nat) (bits b2 : List Nat), (getdataframes w1 w2 n bits).ok = true →
      getdataframes w1 w2 n (bits ++ b2) =
        { getdataframes w1 w2 n bits with
          rest := (getdataframes w1 w2 n bits).rest ++ b2 } := by
  intro n
  induction n with
  | zero => intro w1 w2 bits b2 _; rfl
  | succ n ih =>
    intro w1 w2 bits b2 h
    simp only [getdataframes] at h ⊢
    by_cases h30 : bits.length < 30
    · rw [if_pos h30] at h; exact absurd h (by simp)
    · have h30' : ¬ (bits ++ b2).length < 30 := by
        simp only [List.length_append]; omega
      rw [if_neg h30] at h
      rw [if_neg h30, if_neg h30', List.take_append_of_le_length (by omega),
        List.drop_append_of_le_length (by omega)]
      by_cases hp : calcpar_i (correctWord (shiftFrame w1 w2 (bits.take 30)).1) =
          (shiftFrame w1 w2 (bits.take 30)).1 &&& 0x3f
      · rw [if_pos hp] at h
        rw [if_pos hp, if_pos hp]
        dsimp only at h ⊢
        rw [ih _ _ _ b2 h]
      · rw [if_neg hp, if_neg hp]

/-! ## Trace-counter lemmas -/

theorem countS_cons (e : Ev) (t : List Ev) : countS (e :: t) = countS [e] + countS t := by
  cases e <;> simp [countS] <;> omega

theorem countS_append (a b : List Ev) : countS (a ++ b) = countS a + countS b := by
  induction a with
  | nil => simp [countS]
  | cons e t ih =>
    rw [List.cons_append, countS_cons, ih, countS_cons e t]; omega

theorem countS_map_zero {α : Type} (l : List α) (f : α → Ev)
    (h : ∀ x, countS [f x] = 0) : countS (l.map f) = 0 := by
  induction l with
  | nil => rfl
  | cons a t ih => rw [List.map_cons, countS_cons, h, ih]

theorem countSat_cons (e : Ev) (t : List Ev) :
    countSat (e :: t) = countSat [e] + countSat t := by
  cases e <;> simp [countSat] <;> omega

theorem countSat_append (a b : List Ev) : countSat (a ++ b) = countSat a + countSat b := by
  induction a with
  | nil => simp [countSat]
  | cons e t ih =>
    rw [List.cons_append, countSat_cons, ih, countSat_cons e t]; omega

theorem countSat_map_sat {α : Type} (l : List α) (f : α → Ev)
    (h : ∀ x, countSat [f x] = 1) : countSat (l.map f) = l.length := by
  induction l with
  | nil => rfl
  | cons a t ih => rw [List.map_cons, countSat_cons, h, ih, List.length_cons]; omega

theorem failsOf_cons (e : Ev) (t : List Ev) : failsOf (e :: t) = failsOf [e] + failsOf t := by
  cases e <;> simp [failsOf]

theorem failsOf_append (a b : List Ev) : failsOf (a ++ b) = failsOf a + failsOf b := by
  induction a with
  | nil => simp [failsOf]
  | cons e t ih =>
    rw [List.cons_append, failsOf_cons, ih, failsOf_cons e t]; omega

theorem failsOf_map_zero {α : Type} (l : List α) (f : α → Ev)
    (h : ∀ x, failsOf [f x] = 0) : failsOf (l.map f) = 0 := by
  induction l with
  | nil => rfl
  | cons a t ih => rw [List.map_cons, failsOf_cons, h, ih]

theorem countS_satMap (t : Nat) (l : List SatDec) :
    countS (l.map fun d => Ev.sat t d.satid d.s d.udre d.psc d.rrc d.iod) = 0 :=
  countS_map_zero _ _ (fun _ => rfl)

theorem failsOf_satMap (t : Nat) (l : List SatDec) :
    failsOf (l.map fun d => Ev.sat t d.satid d.s d.udre d.psc d.rrc d.iod) = 0 :=
  failsOf_map_zero _ _ (fun _ => rfl)

theorem countS_sat31Map (l : List SatDec31) :
    countS (l.map fun d => Ev.sat31 d.satid d.s d.udre d.psc d.rrc d.r d.tb) = 0 :=
  countS_map_zero _ _ (fun _ => rfl)

theorem failsOf_sat31Map (l : List SatDec31) :
    failsOf (l.map fun d => Ev.sat31 d.satid d.s d.udre d.psc d.rrc d.r d.tb) = 0 :=
  failsOf_map_zero _ _ (fun _ => rfl)

theorem countS_decodeT5 (m : Nat) : countS [decodeT5 m] = 0 := by
  unfold decodeT5; split <;> rfl

theorem failsOf_decodeT5 (m : Nat) : failsOf [decodeT5 m] = 0 := by
  unfold decodeT5; split <;> rfl

theorem countS_decodeT7 (t : Nat) (fr : List Nat) (i : Nat) :
    countS [decodeT7 t fr i] = 0 := by
  unfold decodeT7; dsimp only; split <;> rfl

theorem failsOf_decodeT7 (t : Nat) (fr : List Nat) (i : Nat) :
    failsOf [decodeT7 t fr i] = 0 := by
  unfold decodeT7; dsimp only; split <;> rfl

theorem countS_decodeT27 (fr : List Nat) (i : Nat) : countS [decodeT27 fr i] = 0 := by
  unfold decodeT27; dsimp only; split <;> rfl

theorem failsOf_decodeT27 (fr : List Nat) (i : Nat) : failsOf [decodeT27 fr i] = 0 := by
  unfold decodeT27; dsimp only; split <;> rfl

/-! ## Body-read pattern lemmas -/

theorem withBody_of_ok (n : Nat) (st : DecState) (bits : List Nat) (se : List Ev)
    (k : GdfRes → DecState × List Ev)
    (hok : (getdataframes st.w1 st.w2 n bits).ok = true) :
    withBody n st bits se k =
      ⟨(k (getdataframes st.w1 st.w2 n bits)).1,
       (getdataframes st.w1 st.w2 n bits).rest,
       (k (getdataframes st.w1 st.w2 n bits)).2, true⟩ := by
  unfold withBody; dsimp only; rw [hok]; rfl

theorem withBody_of_starve (n : Nat) (st : DecState) (bits : List Nat) (se : List Ev)
    (k : GdfRes → DecState × List Ev)
    (hok : (getdataframes st.w1 st.w2 n bits).ok = false) :
    withBody n st bits se k = ⟨st, [], se, false⟩ := by
  unfold withBody; dsimp only; rw [hok]; rfl

theorem withBody_ok_gdf (n : Nat) (st : DecState) (bits : List Nat) (se : List Ev)
    (k : GdfRes → DecState × List Ev) (h : (withBody n st bits se k).ok = true) :
    (getdataframes st.w1 st.w2 n bits).ok = true := by
  by_cases hok : (getdataframes st.w1 st.w2 n bits).ok = true
  · exact hok
  · rw [withBody_of_starve n st bits se k (by simpa using hok)] at h
    exact absurd h (by simp)

theorem withBody_append (n : Nat) (st : DecState) (bits b2 : List Nat) (se : List Ev)
    (k : GdfRes → DecState × List Ev)
    (hk : ∀ (r : GdfRes) (x : List Nat), k { r with rest := x } = k r)
    (h : (withBody n st bits se k).ok = true) :
    withBody n st (bits ++ b2) se k =
      ⟨(withBody n st bits se k).st, (withBody n st bits se k).rest ++ b2,
       (withBody n st bits se k).evs, true⟩ := by
  have hok := withBody_ok_gdf n st bits se k h
  have happ := getdataframes_append n st.w1 st.w2 bits b2 hok
  have hok2 : (getdataframes st.w1 st.w2 n (bits ++ b2)).ok = true := by
    rw [happ]; exact hok
  rw [withBody_of_ok n st (bits ++ b2) se k hok2, withBody_of_ok n st bits se k hok,
    happ, hk]

theorem withBody_rest_le (n : Nat) (st : DecState) (bits : List Nat) (se : List Ev)
    (k : GdfRes → DecState × List Ev) :
    (withBody n st bits se k).rest.length ≤ bits.length := by
  by_cases hok : (getdataframes st.w1 st.w2 n bits).ok = true
  · rw [withBody_of_ok n st bits se k hok]
    exact getdataframes_rest_le n st.w1 st.w2 bits
  · rw [withBody_of_starve n st bits se k (by simpa using hok)]
    simp

theorem withBody_accounting (n : Nat) (st : DecState) (bits : List Nat) (se : List Ev)
    (k : GdfRes → DecState × List Ev)
    (hcount : ∀ r : GdfRes, (k r).1.count = st.count + r.l * 30)
    (hfails : ∀ r : GdfRes, failsOf (k r).2 = if r.l < n then 1 else 0)
    (h : (withBody n st bits se k).ok = true) :
    (withBody n st bits se k).st.count + 30 * failsOf (withBody n st bits se k).evs +
      (withBody n st bits se k).rest.length = st.count + bits.length := by
  have hok := withBody_ok_gdf n st bits se k h
  rw [withBody_of_ok n st bits se k hok]
  dsimp only
  rw [hcount, hfails]
  have hcons := getdataframes_consumed n st.w1 st.w2 bits hok
  by_cases hlt : (getdataframes st.w1 st.w2 n bits).l < n
  · rw [if_pos hlt] at hcons ⊢; omega
  · rw [if_neg hlt] at hcons ⊢; omega

theorem withBody_countS (n : Nat) (st : DecState) (bits : List Nat) (se : List Ev)
    (k : GdfRes → DecState × List Ev) (hse : countS se = 0)
    (hk : ∀ r : GdfRes, countS (k r).2 = 0) :
    countS (withBody n st bits se k).evs = 0 := by
  by_cases hok : (getdataframes st.w1 st.w2 n bits).ok = true
  · rw [withBody_of_ok n st bits se k hok]; exact hk _
  · rw [withBody_of_starve n st bits se k (by simpa using hok)]; exact hse

theorem countS_t3Events (ret : List Nat) (l : Nat) : countS (t3Events ret l) = 0 := by
  unfold t3Events
  split
  · split
    · dsimp only; split <;> rfl
    · rfl
  · rfl

theorem failsOf_t3Events (ret : List Nat) (l : Nat) : failsOf (t3Events ret l) = 0 := by
  unfold t3Events
  split
  · split
    · dsimp only; split <;> rfl
    · rfl
  · rfl

theorem countS_t36Tail (ret : List Nat) : countS (t36Tail ret) = 0 := by
  unfold t36Tail; split <;> rfl

theorem failsOf_t36Tail (ret : List Nat) : failsOf (t36Tail ret) = 0 := by
  unfold t36Tail; split <;> rfl

/-! ## Per-handler lemmas: appending unread stream, bit accounting, status
lines, and stream monotonicity -/

theorem handleT3_append (msglen : Nat) (st : DecState) (bits b2 : List Nat)
    (h : (handleT3 msglen st bits).ok = true) :
    handleT3 msglen st (bits ++ b2) =
      ⟨(handleT3 msglen st bits).st, (handleT3 msglen st bits).rest ++ b2,
       (handleT3 msglen st bits).evs, true⟩ := by
  unfold handleT3 at h ⊢
  by_cases hc : msglen ≠ 4
  · rw [if_pos hc, if_pos hc]
  · rw [if_neg hc] at h
    rw [if_neg hc, if_neg hc]
    refine withBody_append _ _ _ _ _ _ (fun r x => ?_) h
    rfl

theorem handleT3_accounting (msglen : Nat) (st : DecState) (bits : List Nat)
    (h : (handleT3 msglen st bits).ok = true) :
    (handleT3 msglen st bits).st.count + 30 * failsOf (handleT3 msglen st bits).evs +
      (handleT3 msglen st bits).rest.length = st.count + bits.length := by
  unfold handleT3 at h ⊢
  by_cases hc : msglen ≠ 4
  · rw [if_pos hc]; dsimp only [failsOf]; omega
  · rw [if_neg hc] at h ⊢
    refine withBody_accounting _ _ _ _ _ (fun r => rfl) (fun r => ?_) h
    dsimp only
    rw [failsOf_cons, failsOf_t3Events]
    simp [failsOf]

theorem handleT3_countS (msglen : Nat) (st : DecState) (bits : List Nat) :
    countS (handleT3 msglen st bits).evs = 0 := by
  unfold handleT3
  by_cases hc : msglen ≠ 4
  · rw [if_pos hc]; rfl
  · rw [if_neg hc]
    refine withBody_countS _ _ _ _ _ rfl fun r => ?_
    dsimp only
    rw [countS_cons, countS_t3Events]
    rfl

theorem handleT3_rest_le (msglen : Nat) (st : DecState) (bits : List Nat) :
    (handleT3 msglen st bits).rest.length ≤ bits.length := by
  unfold handleT3
  by_cases hc : msglen ≠ 4
  · rw [if_pos hc]
  · rw [if_neg hc]; exact withBody_rest_le _ _ _ _ _

theorem handleT6_append (msglen : Nat) (st : DecState) (bits b2 : List Nat)
    (h : (handleT6 msglen st bits).ok = true) :
    handleT6 msglen st (bits ++ b2) =
      ⟨(handleT6 msglen st bits).st, (handleT6 msglen st bits).rest ++ b2,
       (handleT6 msglen st bits).evs, true⟩ := by
  unfold handleT6 at h ⊢
  by_cases hc : ¬(msglen = 0 ∨ msglen = 1)
  · rw [if_pos hc, if_pos hc]
  · rw [if_neg hc] at h
    rw [if_neg hc, if_neg hc]
    by_cases h0 : msglen = 0
    · rw [if_pos h0, if_pos h0]
    · rw [if_neg h0] at h
      rw [if_neg h0, if_neg h0]
      refine withBody_append _ _ _ _ _ _ (fun r x => ?_) h
      rfl

theorem handleT6_accounting (msglen : Nat) (st : DecState) (bits : List Nat)
    (h : (handleT6 msglen st bits).ok = true) :
    (handleT6 msglen st bits).st.count + 30 * failsOf (handleT6 msglen st bits).evs +
      (handleT6 msglen st bits).rest.length = st.count + bits.length := by
  unfold handleT6 at h ⊢
  by_cases hc : ¬(msglen = 0 ∨ msglen = 1)
  · rw [if_pos hc]; dsimp only [failsOf]; omega
  · rw [if_neg hc] at h ⊢
    by_cases h0 : msglen = 0
    · rw [if_pos h0]; dsimp only [failsOf]; omega
    · rw [if_neg h0] at h ⊢
      have h1 : msglen = 1 := by omega
      subst h1
      have hok := withBody_ok_gdf _ _ _ _ _ h
      rw [withBody_of_ok _ _ _ _ _ hok]
      dsimp only [failsOf]
      have hcons := getdataframes_consumed 1 st.w1 st.w2 bits hok
      have hll := getdataframes_l_le 1 st.w1 st.w2 bits
      by_cases hlt : (getdataframes st.w1 st.w2 1 bits).l < 1
      · rw [if_pos hlt] at hcons; omega
      · rw [if_neg hlt] at hcons; omega

theorem handleT6_countS (msglen : Nat) (st : DecState) (bits : List Nat) :
    countS (handleT6 msglen st bits).evs = 0 := by
  unfold handleT6
  by_cases hc : ¬(msglen = 0 ∨ msglen = 1)
  · rw [if_pos hc]; rfl
  · rw [if_neg hc]
    by_cases h0 : msglen = 0
    · rw [if_pos h0]; rfl
    · rw [if_neg h0]
      exact withBody_countS _ _ _ _ _ rfl fun r => rfl

theorem handleT6_rest_le (msglen : Nat) (st : DecState) (bits : List Nat) :
    (handleT6 msglen st bits).rest.length ≤ bits.length := by
  unfold handleT6
  by_cases hc : ¬(msglen = 0 ∨ msglen = 1)
  · rw [if_pos hc]
  · rw [if_neg hc]
    by_cases h0 : msglen = 0
    · rw [if_pos h0]
    · rw [if_neg h0]; exact withBody_rest_le _ _ _ _ _

theorem handleT5_append (msglen : Nat) (st : DecState) (bits b2 : List Nat)
    (h : (handleT5 msglen st bits).ok = true) :
    handleT5 msglen st (bits ++ b2) =
      ⟨(handleT5 msglen st bits).st, (handleT5 msglen st bits).rest ++ b2,
       (handleT5 msglen st bits).evs, true⟩ := by
  unfold handleT5 at h ⊢
  by_cases hc : msglen = 0
  · rw [if_pos hc, if_pos hc]
  · rw [if_neg hc] at h
    rw [if_neg hc, if_neg hc]
    refine withBody_append _ _ _ _ _ _ (fun r x => ?_) h
    rfl

theorem handleT5_accounting (msglen : Nat) (st : DecState) (bits : List Nat)
    (h : (handleT5 msglen st bits).ok = true) :
    (handleT5 msglen st bits).st.count + 30 * failsOf (handleT5 msglen st bits).evs +
      (handleT5 msglen st bits).rest.length = st.count + bits.length := by
  unfold handleT5 at h ⊢
  by_cases hc : msglen = 0
  · rw [if_pos hc]; dsimp only [failsOf]; omega
  · rw [if_neg hc] at h ⊢
    refine withBody_accounting _ _ _ _ _ (fun r => rfl) (fun r => ?_) h
    dsimp only
    rw [failsOf_cons, failsOf_map_zero _ _ failsOf_decodeT5]
    simp [failsOf]

theorem handleT5_countS (msglen : Nat) (st : DecState) (bits : List Nat) :
    countS (handleT5 msglen st bits).evs = 0 := by
  unfold handleT5
  by_cases hc : msglen = 0
  · rw [if_pos hc]; rfl
  · rw [if_neg hc]
    refine withBody_countS _ _ _ _ _ rfl fun r => ?_
    dsimp only
    rw [countS_cons, countS_map_zero _ _ countS_decodeT5]
    rfl

theorem handleT5_rest_le (msglen : Nat) (st : DecState) (bits : List Nat) :
    (handleT5 msglen st bits).rest.length ≤ bits.length := by
  unfold handleT5
  by_cases hc : msglen = 0
  · rw [if_pos hc]
  · rw [if_neg hc]; exact withBody_rest_le _ _ _ _ _

theorem handleT36_append (msglen : Nat) (st : DecState) (bits b2 : List Nat)
    (h : (handleT36 msglen st bits).ok = true) :
    handleT36 msglen st (bits ++ b2) =
      ⟨(handleT36 msglen st bits).st, (handleT36 msglen st bits).rest ++ b2,
       (handleT36 msglen st bits).evs, true⟩ := by
  unfold handleT36 at h ⊢
  by_cases hc : msglen = 0
  · rw [if_pos hc, if_pos hc]
  · rw [if_neg hc] at h
    rw [if_neg hc, if_neg hc]
    refine withBody_append _ _ _ _ _ _ (fun r x => ?_) h
    rfl

theorem handleT36_accounting (msglen : Nat) (st : DecState) (bits : List Nat)
    (h : (handleT36 msglen st bits).ok = true) :
    (handleT36 msglen st bits).st.count + 30 * failsOf (handleT36 msglen st bits).evs +
      (handleT36 msglen st bits).rest.length = st.count + bits.length := by
  unfold handleT36 at h ⊢
  by_cases hc : msglen = 0
  · rw [if_pos hc]; dsimp only [failsOf]; omega
  · rw [if_neg hc] at h ⊢
    refine withBody_accounting _ _ _ _ _ (fun r => rfl) (fun r => ?_) h
    dsimp only
    rw [failsOf_cons, failsOf_t36Tail]
    simp [failsOf]

theorem handleT36_countS (msglen : Nat) (st : DecState) (bits : List Nat) :
    countS (handleT36 msglen st bits).evs = 0 := by
  unfold handleT36
  by_cases hc : msglen = 0
  · rw [if_pos hc]; rfl
  · rw [if_neg hc]
    refine withBody_countS _ _ _ _ _ rfl fun r => ?_
    dsimp only
    rw [countS_cons, countS_t36Tail]
    rfl

theorem handleT36_rest_le (msglen : Nat) (st : DecState) (bits : List Nat) :
    (handleT36 msglen st bits).rest.length ≤ bits.length := by
  unfold handleT36
  by_cases hc : msglen = 0
  · rw [if_pos hc]
  · rw [if_neg hc]; exact withBody_rest_le _ _ _ _ _

theorem handleT7_append (msgtype msglen : Nat) (st : DecState) (bits b2 : List Nat)
    (h : (handleT7 msgtype msglen st bits).ok = true) :
    handleT7 msgtype msglen st (bits ++ b2) =
      ⟨(handleT7 msgtype msglen st bits).st, (handleT7 msgtype msglen st bits).rest ++ b2,
       (handleT7 msgtype msglen st bits).evs, true⟩ := by
  unfold handleT7 at h ⊢
  by_cases hc : msglen % 3 ≠ 0
  · rw [if_pos hc, if_pos hc]
  · rw [if_neg hc] at h
    rw [if_neg hc, if_neg hc]
    refine withBody_append _ _ _ _ _ _ (fun r x => ?_) h
    rfl

theorem handleT7_accounting (msgtype msglen : Nat) (st : DecState) (bits : List Nat)
    (h : (handleT7 msgtype msglen st bits).ok = true) :
    (handleT7 msgtype msglen st bits).st.count +
        30 * failsOf (handleT7 msgtype msglen st bits).evs +
        (handleT7 msgtype msglen st bits).rest.length = st.count + bits.length := by
  unfold handleT7 at h ⊢
  by_cases hc : msglen % 3 ≠ 0
  · rw [if_pos hc]; dsimp only [failsOf]; omega
  · rw [if_neg hc] at h ⊢
    refine withBody_accounting _ _ _ _ _ (fun r => rfl) (fun r => ?_) h
    dsimp only
    rw [failsOf_cons, failsOf_map_zero _ _ (failsOf_decodeT7 msgtype _)]
    simp [failsOf]

theorem handleT7_countS (msgtype msglen : Nat) (st : DecState) (bits : List Nat) :
    countS (handleT7 msgtype msglen st bits).evs = 0 := by
  unfold handleT7
  by_cases hc : msglen % 3 ≠ 0
  · rw [if_pos hc]; rfl
  · rw [if_neg hc]
    refine withBody_countS _ _ _ _ _ rfl fun r => ?_
    dsimp only
    rw [countS_cons, countS_map_zero _ _ (countS_decodeT7 msgtype _)]
    rfl

theorem handleT7_rest_le (msgtype msglen : Nat) (st : DecState) (bits : List Nat) :
    (handleT7 msgtype msglen st bits).rest.length ≤ bits.length := by
  unfold handleT7
  by_cases hc : msglen % 3 ≠ 0
  · rw [if_pos hc]
  · rw [if_neg hc]; exact withBody_rest_le _ _ _ _ _

theorem handleT1_append (msglen : Nat) (st : DecState) (bits b2 : List Nat)
    (h : (handleT1 msglen st bits).ok = true) :
    handleT1 msglen st (bits ++ b2) =
      ⟨(handleT1 msglen st bits).st, (handleT1 msglen st bits).rest ++ b2,
       (handleT1 msglen st bits).evs, true⟩ := by
  unfold handleT1 at h ⊢
  by_cases hc : ¬(msglen % 5 = 0 ∨ msglen % 5 = 2 ∨ msglen % 5 = 4)
  · rw [if_pos hc, if_pos hc]
  · rw [if_neg hc] at h
    rw [if_neg hc, if_neg hc]
    refine withBody_append _ _ _ _ _ _ (fun r x => ?_) h
    rfl

theorem handleT1_accounting (msglen : Nat) (st : DecState) (bits : List Nat)
    (h : (handleT1 msglen st bits).ok = true) :
    (handleT1 msglen st bits).st.count + 30 * failsOf (handleT1 msglen st bits).evs +
      (handleT1 msglen st bits).rest.length = st.count + bits.length := by
  unfold handleT1 at h ⊢
  by_cases hc : ¬(msglen % 5 = 0 ∨ msglen % 5 = 2 ∨ msglen % 5 = 4)
  · rw [if_pos hc]; dsimp only [failsOf]; omega
  · rw [if_neg hc] at h ⊢
    refine withBody_accounting _ _ _ _ _ (fun r => rfl) (fun r => ?_) h
    dsimp only
    rw [failsOf_append, failsOf_cons, failsOf_satMap]
    simp [failsOf]

theorem handleT1_countS (msglen : Nat) (st : DecState) (bits : List Nat) :
    countS (handleT1 msglen st bits).evs = 0 := by
  unfold handleT1
  by_cases hc : ¬(msglen % 5 = 0 ∨ msglen % 5 = 2 ∨ msglen % 5 = 4)
  · rw [if_pos hc]; rfl
  · rw [if_neg hc]
    refine withBody_countS _ _ _ _ _ rfl fun r => ?_
    dsimp only
    rw [countS_append, countS_cons, countS_satMap]
    rfl

theorem handleT1_rest_le (msglen : Nat) (st : DecState) (bits : List Nat) :
    (handleT1 msglen st bits).rest.length ≤ bits.length := by
  unfold handleT1
  by_cases hc : ¬(msglen % 5 = 0 ∨ msglen % 5 = 2 ∨ msglen % 5 = 4)
  · rw [if_pos hc]
  · rw [if_neg hc]; exact withBody_rest_le _ _ _ _ _

theorem handleT9_append (msglen : Nat) (st : DecState) (bits b2 : List Nat)
    (h : (handleT9 msglen st bits).ok = true) :
    handleT9 msglen st (bits ++ b2) =
      ⟨(handleT9 msglen st bits).st, (handleT9 msglen st bits).rest ++ b2,
       (handleT9 msglen st bits).evs, true⟩ := by
  unfold handleT9 at h ⊢
  by_cases hc : ¬(msglen = 2 ∨ msglen = 4 ∨ msglen = 5)
  · rw [if_pos hc, if_pos hc]
  · rw [if_neg hc] at h
    rw [if_neg hc, if_neg hc]
    refine withBody_append _ _ _ _ _ _ (fun r x => ?_) h
    rfl

theorem handleT9_accounting (msglen : Nat) (st : DecState) (bits : List Nat)
    (h : (handleT9 msglen st bits).ok = true) :
    (handleT9 msglen st bits).st.count + 30 * failsOf (handleT9 msglen st bits).evs +
      (handleT9 msglen st bits).rest.length = st.count + bits.length := by
  unfold handleT9 at h ⊢
  by_cases hc : ¬(msglen = 2 ∨ msglen = 4 ∨ msglen = 5)
  · rw [if_pos hc]; dsimp only [failsOf]; omega
  · rw [if_neg hc] at h ⊢
    refine withBody_accounting _ _ _ _ _ (fun r => rfl) (fun r => ?_) h
    dsimp only
    rw [failsOf_append, failsOf_cons, failsOf_satMap]
    simp [failsOf]

theorem handleT9_countS (msglen : Nat) (st : DecState) (bits : List Nat) :
    countS (handleT9 msglen st bits).evs = 0 := by
  unfold handleT9
  by_cases hc : ¬(msglen = 2 ∨ msglen = 4 ∨ msglen = 5)
  · rw [if_pos hc]; rfl
  · rw [if_neg hc]
    refine withBody_countS _ _ _ _ _ rfl fun r => ?_
    dsimp only
    rw [countS_append, countS_cons, countS_satMap]
    rfl

theorem handleT9_rest_le (msglen : Nat) (st : DecState) (bits : List Nat) :
    (handleT9 msglen st bits).rest.length ≤ bits.length := by
  unfold handleT9
  by_cases hc : ¬(msglen = 2 ∨ msglen = 4 ∨ msglen = 5)
  · rw [if_pos hc]
  · rw [if_neg hc]; exact withBody_rest_le _ _ _ _ _

theorem handleT31_append (msglen : Nat) (st : DecState) (bits b2 : List Nat)
    (h : (handleT31 msglen st bits).ok = true) :
    handleT31 msglen st (bits ++ b2) =
      ⟨(handleT31 msglen st bits).st, (handleT31 msglen st bits).rest ++ b2,
       (handleT31 msglen st bits).evs, true⟩ := by
  unfold handleT31 at h ⊢
  by_cases hc : ¬(msglen % 5 = 0 ∨ msglen % 5 = 2 ∨ msglen % 5 = 4)
  · rw [if_pos hc, if_pos hc]
  · rw [if_neg hc] at h
    rw [if_neg hc, if_neg hc]
    refine withBody_append _ _ _ _ _ _ (fun r x => ?_) h
    rfl

theorem handleT31_accounting (msglen : Nat) (st : DecState) (bits : List Nat)
    (h : (handleT31 msglen st bits).ok = true) :
    (handleT31 msglen st bits).st.count + 30 * failsOf (handleT31 msglen st bits).evs +
      (handleT31 msglen st bits).rest.length = st.count + bits.length := by
  unfold handleT31 at h ⊢
  by_cases hc : ¬(msglen % 5 = 0 ∨ msglen % 5 = 2 ∨ msglen % 5 = 4)
  · rw [if_pos hc]; dsimp only [failsOf]; omega
  · rw [if_neg hc] at h ⊢
    refine withBody_accounting _ _ _ _ _ (fun r => rfl) (fun r => ?_) h
    dsimp only
    rw [failsOf_append, failsOf_cons, failsOf_sat31Map]
    simp [failsOf]

theorem handleT31_countS (msglen : Nat) (st : DecState) (bits : List Nat) :
    countS (handleT31 msglen st bits).evs = 0 := by
  unfold handleT31
  by_cases hc : ¬(msglen % 5 = 0 ∨ msglen % 5 = 2 ∨ msglen % 5 = 4)
  · rw [if_pos hc]; rfl
  · rw [if_neg hc]
    refine withBody_countS _ _ _ _ _ rfl fun r => ?_
    dsimp only
    rw [countS_append, countS_cons, countS_sat31Map]
    rfl

theorem handleT31_rest_le (msglen : Nat) (st : DecState) (bits : List Nat) :
    (handleT31 msglen st bits).rest.length ≤ bits.length := by
  unfold handleT31
  by_cases hc : ¬(msglen % 5 = 0 ∨ msglen % 5 = 2 ∨ msglen % 5 = 4)
  · rw [if_pos hc]
  · rw [if_neg hc]; exact withBody_rest_le _ _ _ _ _

theorem handleT27_append (msglen : Nat) (st : DecState) (bits b2 : List Nat)
    (h : (handleT27 msglen st bits).ok = true) :
    handleT27 msglen st (bits ++ b2) =
      ⟨(handleT27 msglen st bits).st, (handleT27 msglen st bits).rest ++ b2,
       (handleT27 msglen st bits).evs, true⟩ := by
  unfold handleT27 at h ⊢
  by_cases hc : msglen % 6 ≠ 0
  · rw [if_pos hc, if_pos hc]
  · rw [if_neg hc] at h
    rw [if_neg hc, if_neg hc]
    refine withBody_append _ _ _ _ _ _ (fun r x => ?_) h
    rfl

theorem handleT27_accounting (msglen : Nat) (st : DecState) (bits : List Nat)
    (h : (handleT27 msglen st bits).ok = true) :
    (handleT27 msglen st bits).st.count + 30 * failsOf (handleT27 msglen st bits).evs +
      (handleT27 msglen st bits).rest.length = st.count + bits.length := by
  unfold handleT27 at h ⊢
  by_cases hc : msglen % 6 ≠ 0
  · rw [if_pos hc]; dsimp only [failsOf]; omega
  · rw [if_neg hc] at h ⊢
    refine withBody_accounting _ _ _ _ _ (fun r => rfl) (fun r => ?_) h
    dsimp only
    rw [failsOf_cons, failsOf_map_zero _ _ (failsOf_decodeT27 _)]
    simp [failsOf]

theorem handleT27_countS (msglen : Nat) (st : DecState) (bits : List Nat) :
    countS (handleT27 msglen st bits).evs = 0 := by
  unfold handleT27
  by_cases hc : msglen % 6 ≠ 0
  · rw [if_pos hc]; rfl
  · rw [if_neg hc]
    refine withBody_countS _ _ _ _ _ rfl fun r => ?_
    dsimp only
    rw [countS_cons, countS_map_zero _ _ (countS_decodeT27 _)]
    rfl

theorem handleT27_rest_le (msglen : Nat) (st : DecState) (bits : List Nat) :
    (handleT27 msglen st bits).rest.length ≤ bits.length := by
  unfold handleT27
  by_cases hc : msglen % 6 ≠ 0
  · rw [if_pos hc]
  · rw [if_neg hc]; exact withBody_rest_le _ _ _ _ _

/-! ## Header field extraction in closed form -/

theorem extractdata_hdr2 (v : Nat) :
    extractdata v [6, 10] = [some ((v >>> 10) &&& 63), some (v &&& 1023)] := rfl

theorem extractdata_hdr4 (v : Nat) :
    extractdata v [13, 3, 5, 3] =
      [some ((v >>> 11) &&& 8191), some ((v >>> 8) &&& 7),
       some ((v >>> 3) &&& 31), some (v &&& 7)] := rfl

/-! ## Dispatcher-level lemmas -/

theorem handleMsg_append (msgtype msglen : Nat) (st : DecState) (bits b2 : List Nat)
    (h : (handleMsg msgtype msglen st bits).ok = true) :
    handleMsg msgtype msglen st (bits ++ b2) =
      ⟨(handleMsg msgtype msglen st bits).st,
       (handleMsg msgtype msglen st bits).rest ++ b2,
       (handleMsg msgtype msglen st bits).evs, true⟩ := by
  unfold handleMsg at h ⊢
  by_cases h3 : msgtype = 3
  · rw [if_pos h3] at h; rw [if_pos h3, if_pos h3]; exact handleT3_append _ _ _ _ h
  · rw [if_neg h3] at h
    rw [if_neg h3, if_neg h3]
    by_cases h6 : msgtype = 6
    · rw [if_pos h6] at h; rw [if_pos h6, if_pos h6]; exact handleT6_append _ _ _ _ h
    · rw [if_neg h6] at h
      rw [if_neg h6, if_neg h6]
      by_cases h5 : msgtype = 5
      · rw [if_pos h5] at h; rw [if_pos h5, if_pos h5]; exact handleT5_append _ _ _ _ h
      · rw [if_neg h5] at h
        rw [if_neg h5, if_neg h5]
        by_cases h36 : msgtype = 36
        · rw [if_pos h36] at h; rw [if_pos h36, if_pos h36]; exact handleT36_append _ _ _ _ h
        · rw [if_neg h36] at h
          rw [if_neg h36, if_neg h36]
          by_cases h735 : msgtype = 7 ∨ msgtype = 35
          · rw [if_pos h735] at h; rw [if_pos h735, if_pos h735]; exact handleT7_append _ _ _ _ _ h
          · rw [if_neg h735] at h
            rw [if_neg h735, if_neg h735]
            by_cases h1 : msgtype = 1
            · rw [if_pos h1] at h; rw [if_pos h1, if_pos h1]; exact handleT1_append _ _ _ _ h
            · rw [if_neg h1] at h
              rw [if_neg h1, if_neg h1]
              by_cases h9 : msgtype = 9
              · rw [if_pos h9] at h; rw [if_pos h9, if_pos h9]; exact handleT9_append _ _ _ _ h
              · rw [if_neg h9] at h
                rw [if_neg h9, if_neg h9]
                by_cases h31 : msgtype = 31
                · rw [if_pos h31] at h; rw [if_pos h31, if_pos h31]; exact handleT31_append _ _ _ _ h
                · rw [if_neg h31] at h
                  rw [if_neg h31, if_neg h31]
                  by_cases h27 : msgtype = 27
                  · rw [if_pos h27] at h; rw [if_pos h27, if_pos h27]; exact handleT27_append _ _ _ _ h
                  · rw [if_neg h27] at h
                    rw [if_neg h27, if_neg h27]

theorem handleMsg_accounting (msgtype msglen : Nat) (st : DecState) (bits : List Nat)
    (h : (handleMsg msgtype msglen st bits).ok = true) :
    (handleMsg msgtype msglen st bits).st.count +
        30 * failsOf (handleMsg msgtype msglen st bits).evs +
        (handleMsg msgtype msglen st bits).rest.length = st.count + bits.length := by
  unfold handleMsg at h ⊢
  by_cases h3 : msgtype = 3
  · rw [if_pos h3] at h ⊢; exact handleT3_accounting _ _ _ h
  · rw [if_neg h3] at h
    rw [if_neg h3]
    by_cases h6 : msgtype = 6
    · rw [if_pos h6] at h ⊢; exact handleT6_accounting _ _ _ h
    · rw [if_neg h6] at h
      rw [if_neg h6]
      by_cases h5 : msgtype = 5
      · rw [if_pos h5] at h ⊢; exact handleT5_accounting _ _ _ h
      · rw [if_neg h5] at h
        rw [if_neg h5]
        by_cases h36 : msgtype = 36
        · rw [if_pos h36] at h ⊢; exact handleT36_accounting _ _ _ h
        · rw [if_neg h36] at h
          rw [if_neg h36]
          by_cases h735 : msgtype = 7 ∨ msgtype = 35
          · rw [if_pos h735] at h ⊢; exact handleT7_accounting _ _ _ _ h
          · rw [if_neg h735] at h
            rw [if_neg h735]
            by_cases h1 : msgtype = 1
            · rw [if_pos h1] at h ⊢; exact handleT1_accounting _ _ _ h
            · rw [if_neg h1] at h
              rw [if_neg h1]
              by_cases h9 : msgtype = 9
              · rw [if_pos h9] at h ⊢; exact handleT9_accounting _ _ _ h
              · rw [if_neg h9] at h
                rw [if_neg h9]
                by_cases h31 : msgtype = 31
                · rw [if_pos h31] at h ⊢; exact handleT31_accounting _ _ _ h
                · rw [if_neg h31] at h
                  rw [if_neg h31]
                  by_cases h27 : msgtype = 27
                  · rw [if_pos h27] at h ⊢; exact handleT27_accounting _ _ _ h
                  · rw [if_neg h27] at h
                    rw [if_neg h27]
                    dsimp only [failsOf]; omega

theorem handleMsg_countS (msgtype msglen : Nat) (st : DecState) (bits : List Nat) :
    countS (handleMsg msgtype msglen st bits).evs = 0 := by
  unfold handleMsg
  by_cases h3 : msgtype = 3
  · rw [if_pos h3]; exact handleT3_countS _ _ _
  · rw [if_neg h3]
    by_cases h6 : msgtype = 6
    · rw [if_pos h6]; exact handleT6_countS _ _ _
    · rw [if_neg h6]
      by_cases h5 : msgtype = 5
      · rw [if_pos h5]; exact handleT5_countS _ _ _
      · rw [if_neg h5]
        by_cases h36 : msgtype = 36
        · rw [if_pos h36]; exact handleT36_countS _ _ _
        · rw [if_neg h36]
          by_cases h735 : msgtype = 7 ∨ msgtype = 35
          · rw [if_pos h735]; exact handleT7_countS _ _ _ _
          · rw [if_neg h735]
            by_cases h1 : msgtype = 1
            · rw [if_pos h1]; exact handleT1_countS _ _ _
            · rw [if_neg h1]
              by_cases h9 : msgtype = 9
              · rw [if_pos h9]; exact handleT9_countS _ _ _
              · rw [if_neg h9]
                by_cases h31 : msgtype = 31
                · rw [if_pos h31]; exact handleT31_countS _ _ _
                · rw [if_neg h31]
                  by_cases h27 : msgtype = 27
                  · rw [if_pos h27]; exact handleT27_countS _ _ _
                  · rw [if_neg h27]
                    rfl

theorem handleMsg_rest_le (msgtype msglen : Nat) (st : DecState) (bits : List Nat) :
    (handleMsg msgtype msglen st bits).rest.length ≤ bits.length := by
  unfold handleMsg
  by_cases h3 : msgtype = 3
  · rw [if_pos h3]; exact handleT3_rest_le _ _ _
  · rw [if_neg h3]
    by_cases h6 : msgtype = 6
    · rw [if_pos h6]; exact handleT6_rest_le _ _ _
    · rw [if_neg h6]
      by_cases h5 : msgtype = 5
      · rw [if_pos h5]; exact handleT5_rest_le _ _ _
      · rw [if_neg h5]
        by_cases h36 : msgtype = 36
        · rw [if_pos h36]; exact handleT36_rest_le _ _ _
        · rw [if_neg h36]
          by_cases h735 : msgtype = 7 ∨ msgtype = 35
          · rw [if_pos h735]; exact handleT7_rest_le _ _ _ _
          · rw [if_neg h735]
            by_cases h1 : msgtype = 1
            · rw [if_pos h1]; exact handleT1_rest_le _ _ _
            · rw [if_neg h1]
              by_cases h9 : msgtype = 9
              · rw [if_pos h9]; exact handleT9_rest_le _ _ _
              · rw [if_neg h9]
                by_cases h31 : msgtype = 31
                · rw [if_pos h31]; exact handleT31_rest_le _ _ _
                · rw [if_neg h31]
                  by_cases h27 : msgtype = 27
                  · rw [if_pos h27]; exact handleT27_rest_le _ _ _
                  · rw [if_neg h27]

/-! ## Main-loop step lemmas -/

theorem decodeStep_append (st : DecState) (c : Nat) (rest b2 : List Nat)
    (h : (decodeStep st c rest).ok = true) :
    decodeStep st c (rest ++ b2) =
      ⟨(decodeStep st c rest).st, (decodeStep st c rest).rest ++ b2,
       (decodeStep st c rest).evs, true⟩ := by
  unfold decodeStep at h ⊢
  dsimp only at h ⊢
  rw [extractdata_hdr2, extractdata_hdr4] at h ⊢
  by_cases hg : calcpar_i (correctWord (shiftBit st.w1 st.w2 c).1) ≠
        (shiftBit st.w1 st.w2 c).1 &&& 0x3f ∨
      calcpar_i (correctWord (shiftBit st.w1 st.w2 c).2) ≠
        (shiftBit st.w1 st.w2 c).2 &&& 0x3f
  · rw [if_pos hg, if_pos hg]
  · rw [if_neg hg] at h
    rw [if_neg hg, if_neg hg]
    by_cases hs : (correctWord (shiftBit st.w1 st.w2 c).2 &&& 0x3fffffc0) >>> 6 >>> 16
        = 0x66
    · rw [if_pos hs] at h
      rw [if_pos hs, if_pos hs]
      dsimp only at h ⊢
      rw [handleMsg_append _ _ _ _ b2 (by exact h)]
    · rw [if_neg hs] at h
      rw [if_neg hs, if_neg hs]

theorem decodeStep_accounting (st : DecState) (c : Nat) (rest : List Nat)
    (h : (decodeStep st c rest).ok = true) :
    (decodeStep st c rest).st.count + 30 * failsOf (decodeStep st c rest).evs +
      (decodeStep st c rest).rest.length = st.count + 1 + rest.length := by
  unfold decodeStep at h ⊢
  dsimp only at h ⊢
  rw [extractdata_hdr2, extractdata_hdr4] at h ⊢
  by_cases hg : calcpar_i (correctWord (shiftBit st.w1 st.w2 c).1) ≠
        (shiftBit st.w1 st.w2 c).1 &&& 0x3f ∨
      calcpar_i (correctWord (shiftBit st.w1 st.w2 c).2) ≠
        (shiftBit st.w1 st.w2 c).2 &&& 0x3f
  · rw [if_pos hg]; dsimp only [failsOf]
  · rw [if_neg hg] at h ⊢
    by_cases hs : (correctWord (shiftBit st.w1 st.w2 c).2 &&& 0x3fffffc0) >>> 6 >>> 16
        = 0x66
    · rw [if_pos hs] at h ⊢
      dsimp only at h ⊢
      rw [failsOf_cons]
      have hacc := handleMsg_accounting _ _ _ _ h
      dsimp only at hacc
      dsimp only [failsOf]
      omega
    · rw [if_neg hs]; dsimp only [failsOf]

theorem decodeStep_rest_le (st : DecState) (c : Nat) (rest : List Nat) :
    (decodeStep st c rest).rest.length ≤ rest.length := by
  unfold decodeStep
  dsimp only
  rw [extractdata_hdr2, extractdata_hdr4]
  by_cases hg : calcpar_i (correctWord (shiftBit st.w1 st.w2 c).1) ≠
        (shiftBit st.w1 st.w2 c).1 &&& 0x3f ∨
      calcpar_i (correctWord (shiftBit st.w1 st.w2 c).2) ≠
        (shiftBit st.w1 st.w2 c).2 &&& 0x3f
  · rw [if_pos hg]
  · rw [if_neg hg]
    by_cases hs : (correctWord (shiftBit st.w1 st.w2 c).2 &&& 0x3fffffc0) >>> 6 >>> 16
        = 0x66
    · rw [if_pos hs]
      exact handleMsg_rest_le _ _ _ _
    · rw [if_neg hs]

/-! ## Whole-run lemmas -/

/-- The fuel is irrelevant as soon as it exceeds the stream length: every
iteration consumes at least one bit. -/
theorem runLoop_fuel_irrel :
    ∀ (f1 f2 : Nat) (st : DecState) (bits : List Nat),
      bits.length + 1 ≤ f1 → bits.length + 1 ≤ f2 →
      runLoop f1 st bits = runLoop f2 st bits := by
  intro f1
  induction f1 with
  | zero => intro f2 st bits h1 _; omega
  | succ f ih =>
    intro f2 st bits h1 h2
    cases bits with
    | nil =>
      cases f2 with
      | zero => omega
      | succ f2 => rfl
    | cons c rest =>
      cases f2 with
      | zero => simp at h2
      | succ f2 =>
        simp only [runLoop]
        by_cases hok : (decodeStep st c rest).ok = true
        · rw [if_pos hok, if_pos hok]
          have hle := decodeStep_rest_le st c rest
          rw [ih f2 (decodeStep st c rest).st (decodeStep st c rest).rest
            (by simp only [List.length_cons] at h1; omega)
            (by simp only [List.length_cons] at h2; omega)]
        · rw [if_neg hok, if_neg hok]

theorem runFrom_nil (st : DecState) : runFrom st [] = ⟨st, [], true⟩ := rfl

/-- One-step unfolding of `runFrom`. -/
theorem runFrom_cons (st : DecState) (c : Nat) (rest : List Nat) :
    runFrom st (c :: rest) =
      if (decodeStep st c rest).ok then
        ⟨(runFrom (decodeStep st c rest).st (decodeStep st c rest).rest).st,
         (decodeStep st c rest).evs ++
           (runFrom (decodeStep st c rest).st (decodeStep st c rest).rest).evs,
         (runFrom (decodeStep st c rest).st (decodeStep st c rest).rest).ok⟩
      else ⟨(decodeStep st c rest).st, (decodeStep st c rest).evs, false⟩ := by
  have hdef : runFrom st (c :: rest) = runLoop (rest.length + 1 + 1) st (c :: rest) := rfl
  rw [hdef, runLoop]
  by_cases hok : (decodeStep st c rest).ok = true
  · rw [if_pos hok, if_pos hok]
    have hle := decodeStep_rest_le st c rest
    rw [runLoop_fuel_irrel (rest.length + 1)
      ((decodeStep st c rest).rest.length + 1)
      (decodeStep st c rest).st (decodeStep st c rest).rest (by omega)
      (Nat.le_refl _)]
    rfl
  · rw [if_neg hok, if_neg hok]

/-- Composition of a clean (non-starved) run over `b1` with the run over the
rest of the stream. -/
theorem runFrom_append :
    ∀ (f : Nat) (st : DecState) (b1 b2 : List Nat), b1.length + 1 ≤ f →
      (runFrom st b1).ok = true →
      runFrom st (b1 ++ b2) =
        ⟨(runFrom (runFrom st b1).st b2).st,
         (runFrom st b1).evs ++ (runFrom (runFrom st b1).st b2).evs,
         (runFrom (runFrom st b1).st b2).ok⟩ := by
  intro f
  induction f with
  | zero => intro st b1 b2 h1 _; omega
  | succ f ih =>
    intro st b1 b2 h1 h
    cases b1 with
    | nil => simp only [List.nil_append]; rfl
    | cons c t1 =>
      rw [runFrom_cons st c t1] at h
      rw [runFrom_cons st c t1, List.cons_append, runFrom_cons st c (t1 ++ b2)]
      by_cases hok : (decodeStep st c t1).ok = true
      · rw [if_pos hok] at h
        rw [if_pos hok]
        dsimp only at h ⊢
        rw [decodeStep_append st c t1 b2 hok]
        dsimp only
        rw [if_pos rfl]
        have hle := decodeStep_rest_le st c t1
        rw [ih (decodeStep st c t1).st (decodeStep st c t1).rest b2
          (by simp only [List.length_cons] at h1; omega) h]
        dsimp only
        rw [List.append_assoc]
      · rw [if_neg hok] at h
        exact absurd h (by simp)

/-- Zero bits from a flushed register are pure no-op ticks: they advance
only the counter, touch no store, and emit nothing. -/
theorem decodeStep_zero (st : DecState) (rest : List Nat) (h1 : st.w1 = 0)
    (h2 : st.w2 = 0) :
    decodeStep st 0 rest =
      ⟨{ st with w1 := 0, w2 := 0, count := st.count + 1 }, rest, [], true⟩ := by
  unfold decodeStep
  dsimp only
  rw [h1, h2]
  rfl

theorem runFrom_zeros (n : Nat) :
    ∀ (st : DecState), st.w1 = 0 → st.w2 = 0 →
      runFrom st (List.replicate n 0) =
        ⟨{ st with w1 := 0, w2 := 0, count := st.count + n }, [], true⟩ := by
  induction n with
  | zero =>
    intro st h1 h2
    show (⟨st, [], true⟩ : RunRes) = _
    cases st
    dsimp only at h1 h2
    subst h1
    subst h2
    simp
  | succ n ih =>
    intro st h1 h2
    rw [List.replicate_succ, runFrom_cons, decodeStep_zero st _ h1 h2]
    dsimp only
    rw [if_pos rfl]
    rw [ih { st with w1 := 0, w2 := 0, count := st.count + 1 } rfl rfl]
    dsimp only
    have hc : st.count + 1 + n = st.count + (n + 1) := by omega
    rw [hc]
    rfl

/-- Stream accounting over a whole clean run: the counter plus 30 per failed
body read equals the bits consumed. -/
theorem runFrom_accounting :
    ∀ (f : Nat) (st : DecState) (bits : List Nat), bits.length + 1 ≤ f →
      (runFrom st bits).ok = true →
      (runFrom st bits).st.count + 30 * failsOf (runFrom st bits).evs =
        st.count + bits.length := by
  intro f
  induction f with
  | zero => intro st bits h1 _; omega
  | succ f ih =>
    intro st bits h1 h
    cases bits with
    | nil => rw [runFrom_nil]; simp [failsOf]
    | cons c rest =>
      rw [runFrom_cons st c rest] at h ⊢
      by_cases hok : (decodeStep st c rest).ok = true
      · rw [if_pos hok] at h ⊢
        dsimp only at h ⊢
        rw [failsOf_append]
        have hstep := decodeStep_accounting st c rest hok
        have hle := decodeStep_rest_le st c rest
        have hrec := ih (decodeStep st c rest).st (decodeStep st c rest).rest
          (by simp only [List.length_cons] at h1; omega) h
        simp only [List.length_cons]
        omega
      · rw [if_neg hok] at h
        exact absurd h (by simp)

/-! ## Bit-level helpers for the polarity-correction claims -/

theorem and_bit30_ne_zero (w : Nat) : (w &&& 0x40000000 ≠ 0) ↔ w.testBit 30 = true := by
  have h30 : (0x40000000 : Nat) = 2 ^ 30 := by norm_num
  constructor
  · intro h
    obtain ⟨i, hi⟩ := Nat.ne_zero_implies_bit_true h
    rw [h30] at hi
    simp only [Nat.testBit_and, Nat.testBit_two_pow, Bool.and_eq_true,
      decide_eq_true_eq] at hi
    obtain ⟨hw, hi30⟩ := hi
    rwa [hi30]
  · intro h hz
    have hzb : (w &&& 0x40000000).testBit 30 = false := by
      rw [hz]; exact Nat.zero_testBit 30
    rw [h30] at hzb
    simp [Nat.testBit_and, Nat.testBit_two_pow, h] at hzb
    exact absurd hzb (by decide)

theorem mask_testBit (i : Nat) :
    (0x3fffffc0 : Nat).testBit i = decide (6 ≤ i ∧ i ≤ 29) := by
  rcases Nat.lt_or_ge i 30 with hi | hi
  · interval_cases i <;> decide
  · rw [Nat.testBit_eq_false_of_lt]
    · symm
      simp only [decide_eq_false_iff_not]
      omega
    · calc (0x3fffffc0 : Nat) < 2 ^ 30 := by norm_num
        _ ≤ 2 ^ i := Nat.pow_le_pow_right (by norm_num) hi

/-! ## Claim theorems -/

/-- Claim C8 (confirmed): after `cleanup(t)` with `removeold = 5000`, an
entry is in the store iff it was there before and its stored tick is
`≥ t − 5000` (so entries with tick `< t − 5000` are deleted and entries
with tick exactly `t − 5000` are retained). -/
theorem C8_cleanup_membership (store : Store) (t : Nat)
    (kv : (Nat × Nat) × SatVal) :
    kv ∈ (ProcessType9.cleanup ⟨store, 5000⟩ t).all ↔
      kv ∈ store ∧ (t : Int) - 5000 ≤ (kv.2.tcount : Int) := by
  unfold ProcessType9.cleanup
  dsimp only
  rw [List.mem_filter]
  constructor
  · rintro ⟨hm, hf⟩
    refine ⟨hm, ?_⟩
    simp only [Bool.not_eq_true', decide_eq_false_iff_not, not_lt] at hf
    omega
  · rintro ⟨hm, hle⟩
    refine ⟨hm, ?_⟩
    simp only [Bool.not_eq_true', decide_eq_false_iff_not, not_lt]
    omega

/-- Claim C4 (code bug, code evaluated at the boundary): `psc` and `rrc`
sign extension are exact two's complement (`>=` tests), but `lat`/`lon`
and the ECEF components use a strict `>` test, so the most negative value
(`0x8000` at 16 bits, `0x80000000` at 32 bits) is returned as a large
positive number instead of the claimed negative boundary; one step above
the boundary they do go negative. -/
theorem C4_sign_extension_boundary :
    signExtPsc 0x8000 = -0x8000 ∧ signExtRrc 0x80 = -0x80 ∧
    signExtLatLon 0x8000 = 0x8000 ∧ signExtEcef 0x80000000 = 0x80000000 ∧
    signExtLatLon 0x8001 = -0x7FFF ∧ signExtEcef 0x80000001 = -0x7FFFFFFF := by
  decide

/-- Claim C5, counterexample: at `w = 0x40000000` (bit 30 set) the six
parity bits of the corrected word are NOT the inversion of the parity bits
of `w` — the XOR mask `0x3FFFFFC0` leaves the low six bits untouched. -/
theorem C5_parity_bits_not_inverted :
    ¬ (correctWord 0x40000000 &&& 0x3f = ((0x40000000 : Nat) &&& 0x3f) ^^^ 0x3f) := by
  decide

/-- Claim C5 as amended (proved): with bit 30 set the corrected word is
`w XOR 0x3FFFFFC0`, which inverts exactly the 24 data bits 29..6 and
leaves every other bit — the 6 parity bits 5..0 included — unchanged;
with bit 30 clear the word is unchanged. -/
theorem C5_corrected_word_bits (w : Nat) :
    (correctWord w = if w.testBit 30 = true then w ^^^ 0x3fffffc0 else w) ∧
    ∀ i : Nat, (correctWord w).testBit i =
      if w.testBit 30 = true ∧ 6 ≤ i ∧ i ≤ 29 then !(w.testBit i)
      else w.testBit i := by
  unfold correctWord
  by_cases hb : w.testBit 30 = true
  · rw [if_pos ((and_bit30_ne_zero w).mpr hb), if_pos hb]
    refine ⟨rfl, fun i => ?_⟩
    rw [Nat.testBit_xor, mask_testBit]
    by_cases hi : 6 ≤ i ∧ i ≤ 29
    · rw [if_pos ⟨hb, hi.1, hi.2⟩]
      simp [hi]
    · rw [if_neg (by tauto)]
      simp [hi]
  · rw [if_neg (fun hc => hb ((and_bit30_ne_zero w).mp hc)), if_neg hb]
    refine ⟨rfl, fun i => ?_⟩
    rw [if_neg (by tauto)]

/-! ## `getinbits.get` contract -/

theorem takeChunk_spec (s : BitSrc) (b : Nat) (acc : List Nat)
    (hwf : s.bufsize ≤ s.buff.length) :
    (takeChunk s b acc).2.2.length = acc.length + min b (s.bufsize - s.bufptr) ∧
    (takeChunk s b acc).2.1 = b - min b (s.bufsize - s.bufptr) ∧
    (takeChunk s b acc).1.bufsize ≤ (takeChunk s b acc).1.buff.length := by
  unfold takeChunk
  dsimp only
  refine ⟨?_, rfl, hwf⟩
  rw [List.length_append, List.length_take, List.length_drop]
  omega

/-- `get` returns only with exactly the requested number of bits: the loop
exits solely at `bits2get == 0`. -/
theorem getinbits_get_length :
    ∀ (fuel : Nat) (s : BitSrc) (n : Nat) (acc : List Nat)
      (out : List Nat × BitSrc), s.bufsize ≤ s.buff.length →
      getinbits.get fuel s n acc = some out →
      out.1.length = acc.length + n := by
  intro fuel
  induction fuel with
  | zero => intro s n acc out _ h; exact absurd h (by simp [getinbits.get])
  | succ fuel ih =>
    intro s n acc out hwf h
    rw [getinbits.get] at h
    by_cases hb : s.bufptr = s.bufsize
    · rw [if_pos hb] at h
      rcases hd : s.dgs with _ | ⟨d, rest⟩ <;> rw [hd] at h <;> dsimp only at h
      · exact ih s n acc out hwf h
      · by_cases hdl : d.length = 0
        · rw [if_pos hdl] at h
          exact ih { s with dgs := rest } n acc out hwf h
        · rw [if_neg hdl] at h
          obtain ⟨hlen, hrem, hwf2⟩ :=
            takeChunk_spec ⟨d, 0, d.length, rest⟩ n acc (Nat.le_refl _)
          have hmin : min n ((⟨d, 0, d.length, rest⟩ : BitSrc).bufsize -
              (⟨d, 0, d.length, rest⟩ : BitSrc).bufptr) ≤ n := Nat.min_le_left _ _
          by_cases hz : (takeChunk ⟨d, 0, d.length, rest⟩ n acc).2.1 = 0
          · rw [if_pos hz] at h
            rw [Option.some.injEq] at h
            rw [← h]
            dsimp only
            omega
          · rw [if_neg hz] at h
            have := ih _ _ _ out hwf2 h
            omega
    · rw [if_neg hb] at h
      dsimp only at h
      obtain ⟨hlen, hrem, hwf2⟩ := takeChunk_spec s n acc hwf
      have hmin : min n (s.bufsize - s.bufptr) ≤ n := Nat.min_le_left _ _
      by_cases hz : (takeChunk s n acc).2.1 = 0
      · rw [if_pos hz] at h
        rw [Option.some.injEq] at h
        rw [← h]
        dsimp only
        omega
      · rw [if_neg hz] at h
        have := ih _ _ _ out hwf2 h
        omega

/-- With a closed transport (every `recv` a zero-length read) and an empty
buffer, `get(1)` never returns: the zero-length read is retried forever. -/
theorem getinbits_closed_no_return :
    ∀ fuel : Nat, getinbits.get fuel ⟨[], 0, 0, []⟩ 1 [] = none := by
  intro fuel
  induction fuel with
  | zero => rfl
  | succ fuel ih => rw [getinbits.get]; exact ih

/-- Claim C2 (the code at the claimed failing input): on a closed transport
`get(1)` loops forever on the zero-length reads and never returns — it
does NOT return fewer than `n` bits; whenever `get` does return, it
returns exactly `n` bits.  Hence `if not c: break` in the main loop is
unreachable and the `done` line is never printed. -/
theorem C2_get_never_short :
    (∀ fuel : Nat, getinbits.get fuel ⟨[], 0, 0, []⟩ 1 [] = none) ∧
    (∀ (fuel n : Nat) (s : BitSrc) (out : List Nat × BitSrc),
      s.bufsize ≤ s.buff.length →
      getinbits.get fuel s n [] = some out → out.1.length = n) := by
  refine ⟨getinbits_closed_no_return, fun fuel n s out hwf h => ?_⟩
  have := getinbits_get_length fuel s n [] out hwf h
  simpa using this

/-- Witness for C2, at concrete inputs: fuel 5 on the closed transport
returns nothing, and a served `get(1)` returns exactly one bit. -/
theorem C2_get_never_short_witness :
    (getinbits.get 5 ⟨[], 0, 0, []⟩ 1 [] = none) ∧
    (([1] : List Nat), (⟨[1, 0], 1, 2, []⟩ : BitSrc)).1.length = 1 := by
  exact ⟨C2_get_never_short.1 5,
    C2_get_never_short.2 5 1 ⟨[1, 0], 0, 2, []⟩ ([1], ⟨[1, 0], 1, 2, []⟩)
      (by decide) rfl⟩

/-- Claim C7 (confirmed): over a stream carrying at least the `30·n` bits
the reader may pull, `__getdataframes` returns exactly the longest prefix
of the chain of candidate frames in which every frame passes parity — the
`takeWhile` of the parity verdicts — together with its length; it never
returns any frame at or after the first failing one. -/
theorem C7_frames_longest_valid (n : Nat) :
    ∀ (w1 w2 : Nat) (bits : List Nat), 30 * n ≤ bits.length →
      (getdataframes w1 w2 n bits).ret =
        ((frameSeq n w1 w2 bits).takeWhile Prod.snd).map Prod.fst ∧
      (getdataframes w1 w2 n bits).l =
        ((frameSeq n w1 w2 bits).takeWhile Prod.snd).length := by
  induction n with
  | zero => intro w1 w2 bits _; exact ⟨rfl, rfl⟩
  | succ n ih =>
    intro w1 w2 bits h
    have h30 : ¬ bits.length < 30 := by omega
    rw [getdataframes, frameSeq]
    rw [if_neg h30, if_neg h30]
    dsimp only
    by_cases hp : calcpar_i (correctWord (shiftFrame w1 w2 (bits.take 30)).1) =
        (shiftFrame w1 w2 (bits.take 30)).1 &&& 0x3f
    · rw [if_pos hp]
      rw [List.takeWhile_cons_of_pos (by simpa using hp)]
      obtain ⟨ih1, ih2⟩ := ih (shiftFrame w1 w2 (bits.take 30)).1
        (shiftFrame w1 w2 (bits.take 30)).2 (bits.drop 30)
        (by rw [List.length_drop]; omega)
      constructor
      · dsimp only
        rw [ih1, List.map_cons]
      · dsimp only
        rw [ih2, List.length_cons]
    · rw [if_neg hp]
      rw [List.takeWhile_cons_of_neg (by simpa using hp)]
      exact ⟨rfl, rfl⟩

/-- Witness for C7 at a concrete input: one all-zero frame from the flushed
register passes parity and is returned. -/
theorem C7_frames_longest_valid_witness :
    (getdataframes 0 0 1 (List.replicate 30 0)).ret =
      ((frameSeq 1 0 0 (List.replicate 30 0)).takeWhile Prod.snd).map Prod.fst ∧
    (getdataframes 0 0 1 (List.replicate 30 0)).l =
      ((frameSeq 1 0 0 (List.replicate 30 0)).takeWhile Prod.snd).length :=
  C7_frames_longest_valid 1 0 0 (List.replicate 30 0) (by decide)

theorem withBody_count_of_ok (n : Nat) (st : DecState) (bits : List Nat)
    (se : List Ev) (k : GdfRes → DecState × List Ev)
    (hcount : ∀ r : GdfRes, (k r).1.count = st.count + r.l * 30)
    (h : (withBody n st bits se k).ok = true) :
    (withBody n st bits se k).st.count =
      st.count + (getdataframes st.w1 st.w2 n bits).l * 30 := by
  have hok := withBody_ok_gdf _ _ _ _ _ h
  rw [withBody_of_ok _ _ _ _ _ hok]
  exact hcount _

/-- Claim C10 (confirmed): a type 6 message with `msglen = 1` advances the
global bit counter by a flat 30 after the body read, with no condition on
the frame's parity; every other message type that performs a body read
advances it by `30 ·` (frames that passed parity). -/
theorem C10_type6_flat_count (st : DecState) (bits : List Nat) (msglen : Nat) :
    (30 ≤ bits.length → (handleT6 1 st bits).st.count = st.count + 30) ∧
    (msglen = 4 → (handleT3 msglen st bits).ok = true →
      (handleT3 msglen st bits).st.count =
        st.count + (getdataframes st.w1 st.w2 msglen bits).l * 30) ∧
    (msglen ≠ 0 → (handleT5 msglen st bits).ok = true →
      (handleT5 msglen st bits).st.count =
        st.count + (getdataframes st.w1 st.w2 msglen bits).l * 30) ∧
    (msglen ≠ 0 → (handleT36 msglen st bits).ok = true →
      (handleT36 msglen st bits).st.count =
        st.count + (getdataframes st.w1 st.w2 msglen bits).l * 30) ∧
    (∀ msgtype : Nat, msglen % 3 = 0 → (handleT7 msgtype msglen st bits).ok = true →
      (handleT7 msgtype msglen st bits).st.count =
        st.count + (getdataframes st.w1 st.w2 msglen bits).l * 30) ∧
    ((msglen % 5 = 0 ∨ msglen % 5 = 2 ∨ msglen % 5 = 4) →
      (handleT1 msglen st bits).ok = true →
      (handleT1 msglen st bits).st.count =
        st.count + (getdataframes st.w1 st.w2 msglen bits).l * 30) ∧
    ((msglen = 2 ∨ msglen = 4 ∨ msglen = 5) →
      (handleT9 msglen st bits).ok = true →
      (handleT9 msglen st bits).st.count =
        st.count + (getdataframes st.w1 st.w2 msglen bits).l * 30) ∧
    ((msglen % 5 = 0 ∨ msglen % 5 = 2 ∨ msglen % 5 = 4) →
      (handleT31 msglen st bits).ok = true →
      (handleT31 msglen st bits).st.count =
        st.count + (getdataframes st.w1 st.w2 msglen bits).l * 30) ∧
    (msglen % 6 = 0 → (handleT27 msglen st bits).ok = true →
      (handleT27 msglen st bits).st.count =
        st.count + (getdataframes st.w1 st.w2 msglen bits).l * 30) := by
  refine ⟨?_, ?_, ?_, ?_, ?_, ?_, ?_, ?_, ?_⟩
  · intro hlen
    unfold handleT6
    rw [if_neg (by omega), if_neg (by omega)]
    have hok : (getdataframes st.w1 st.w2 1 bits).ok = true :=
      getdataframes_ok_of_length 1 st.w1 st.w2 bits (by omega)
    rw [withBody_of_ok _ _ _ _ _ hok]
  · intro hc h
    unfold handleT3 at h ⊢
    rw [if_neg (by omega)] at h ⊢
    exact withBody_count_of_ok _ _ _ _ _ (fun r => rfl) h
  · intro hc h
    unfold handleT5 at h ⊢
    rw [if_neg hc] at h ⊢
    exact withBody_count_of_ok _ _ _ _ _ (fun r => rfl) h
  · intro hc h
    unfold handleT36 at h ⊢
    rw [if_neg hc] at h ⊢
    exact withBody_count_of_ok _ _ _ _ _ (fun r => rfl) h
  · intro msgtype hc h
    unfold handleT7 at h ⊢
    rw [if_neg (by omega)] at h ⊢
    exact withBody_count_of_ok _ _ _ _ _ (fun r => rfl) h
  · intro hc h
    unfold handleT1 at h ⊢
    rw [if_neg (by tauto)] at h ⊢
    exact withBody_count_of_ok _ _ _ _ _ (fun r => rfl) h
  · intro hc h
    unfold handleT9 at h ⊢
    rw [if_neg (by tauto)] at h ⊢
    exact withBody_count_of_ok _ _ _ _ _ (fun r => rfl) h
  · intro hc h
    unfold handleT31 at h ⊢
    rw [if_neg (by tauto)] at h ⊢
    exact withBody_count_of_ok _ _ _ _ _ (fun r => rfl) h
  · intro hc h
    unfold handleT27 at h ⊢
    rw [if_neg (by omega)] at h ⊢
    exact withBody_count_of_ok _ _ _ _ _ (fun r => rfl) h

set_option maxRecDepth 40000 in
/-- Witness for C10 at a concrete input: a single body frame with a flipped
data bit fails parity (0 frames pass), yet the type 6 handler still
advances the counter by 30. -/
theorem C10_type6_flat_count_witness :
    (handleT6 1 initState (bitsOfWord (encodeFrame 0 0 ^^^ (1 <<< 20)) 30)).st.count
        = initState.count + 30 ∧
    (getdataframes initState.w1 initState.w2 1
        (bitsOfWord (encodeFrame 0 0 ^^^ (1 <<< 20)) 30)).l = 0 :=
  ⟨(C10_type6_flat_count initState
      (bitsOfWord (encodeFrame 0 0 ^^^ (1 <<< 20)) 30) 0).1 (by decide),
   by decide⟩

theorem countSat_satMap (t : Nat) (l : List SatDec) :
    countSat (l.map fun d => Ev.sat t d.satid d.s d.udre d.psc d.rrc d.iod) = l.length :=
  countSat_map_sat _ _ (fun _ => rfl)

theorem countSat_sat31Map (l : List SatDec31) :
    countSat (l.map fun d => Ev.sat31 d.satid d.s d.udre d.psc d.rrc d.r d.tb) = l.length :=
  countSat_map_sat _ _ (fun _ => rfl)

/-- Claim C6 (confirmed): for message types 1, 9 and 31, when the per-type
length constraint passes and every requested frame passes parity
(`l = msglen`), the number of per-satellite records emitted — each of
which performs exactly one store update, since the handler folds the very
same record list into its store — is
`3·⌊msglen/5⌋ + [0,0,1,1,2][msglen mod 5]`. -/
theorem C6_record_count (st : DecState) (bits : List Nat) (msglen : Nat) :
    ((msglen % 5 = 0 ∨ msglen % 5 = 2 ∨ msglen % 5 = 4) →
      (handleT1 msglen st bits).ok = true →
      (getdataframes st.w1 st.w2 msglen bits).l = msglen →
      countSat (handleT1 msglen st bits).evs =
        3 * (msglen / 5) + [0, 0, 1, 1, 2].getD (msglen % 5) 0) ∧
    ((msglen = 2 ∨ msglen = 4 ∨ msglen = 5) →
      (handleT9 msglen st bits).ok = true →
      (getdataframes st.w1 st.w2 msglen bits).l = msglen →
      countSat (handleT9 msglen st bits).evs =
        3 * (msglen / 5) + [0, 0, 1, 1, 2].getD (msglen % 5) 0) ∧
    ((msglen % 5 = 0 ∨ msglen % 5 = 2 ∨ msglen % 5 = 4) →
      (handleT31 msglen st bits).ok = true →
      (getdataframes st.w1 st.w2 msglen bits).l = msglen →
      countSat (handleT31 msglen st bits).evs =
        3 * (msglen / 5) + [0, 0, 1, 1, 2].getD (msglen % 5) 0) := by
  refine ⟨?_, ?_, ?_⟩
  · intro hc h hl
    unfold handleT1 at h ⊢
    rw [if_neg (by tauto)] at h ⊢
    have hok := withBody_ok_gdf _ _ _ _ _ h
    rw [withBody_of_ok _ _ _ _ _ hok]
    dsimp only
    rw [countSat_append, countSat_cons, countSat_satMap,
      List.length_map, List.length_range, hl, countSat_cons]
    dsimp only [countSat]
    omega
  · intro hc h hl
    unfold handleT9 at h ⊢
    rw [if_neg (by tauto)] at h ⊢
    have hok := withBody_ok_gdf _ _ _ _ _ h
    rw [withBody_of_ok _ _ _ _ _ hok]
    dsimp only
    rw [countSat_append, countSat_cons, countSat_satMap,
      List.length_map, List.length_range, hl, countSat_cons]
    dsimp only [countSat]
    rcases hc with rfl | rfl | rfl <;> decide
  · intro hc h hl
    unfold handleT31 at h ⊢
    rw [if_neg (by tauto)] at h ⊢
    have hok := withBody_ok_gdf _ _ _ _ _ h
    rw [withBody_of_ok _ _ _ _ _ hok]
    dsimp only
    rw [countSat_append, countSat_cons, countSat_sat31Map,
      List.length_map, List.length_range, hl, countSat_cons]
    dsimp only [countSat]
    omega

set_option maxRecDepth 80000 in
/-- Witness for C6 at a concrete input: a type 9 message of two intact
all-zero frames yields exactly one satellite record. -/
theorem C6_record_count_witness :
    countSat (handleT9 2
        ⟨((hdrA 9 &&& 3) <<< 30) ||| hdrB 9 2, hdrA 9, 0, ⟨[], 5000⟩,
          ⟨[], 5000⟩, 0, 0⟩
        (bitsOfWord (encodeFrame (hdrB 9 2 &&& 3) 0) 30 ++
          bitsOfWord (encodeFrame (encodeFrame (hdrB 9 2 &&& 3) 0 &&& 3) 0) 30)).evs =
      3 * (2 / 5) + [0, 0, 1, 1, 2].getD (2 % 5) 0 :=
  (C6_record_count _ _ 2).2.1 (by tauto) (by decide) (by decide)

/-- Claim C9 (confirmed): whenever the freshly shifted words pass the
parity gate and the corrected `w2` payload carries the `0x66` preamble,
the iteration emits exactly one `S` status line — and no body handler ever
emits another, so messages later discarded for a length-constraint
violation, and messages of unknown type, still produce exactly one `S`
line. -/
theorem C9_single_status_line (st : DecState) (c : Nat) (rest : List Nat)
    (h1 : calcpar_i (correctWord (shiftBit st.w1 st.w2 c).1) =
      (shiftBit st.w1 st.w2 c).1 &&& 0x3f)
    (h2 : calcpar_i (correctWord (shiftBit st.w1 st.w2 c).2) =
      (shiftBit st.w1 st.w2 c).2 &&& 0x3f)
    (h3 : (correctWord (shiftBit st.w1 st.w2 c).2 &&& 0x3fffffc0) >>> 6 >>> 16
      = 0x66) :
    countS (decodeStep st c rest).evs = 1 := by
  unfold decodeStep
  dsimp only
  rw [extractdata_hdr2, extractdata_hdr4]
  rw [if_neg (by simp [h1, h2])]
  rw [if_pos h3]
  dsimp only
  rw [countS_cons, handleMsg_countS]
  rfl

set_option maxRecDepth 200000 in
/-- Witness for C9 at a concrete input: the bit completing the type 3
header of `badBodyBits` satisfies the gate and sync conditions, and the
step emits exactly one `S` line. -/
theorem C9_single_status_line_witness :
    countS (decodeStep (runFrom initState (badBodyBits.take 61)).st
      (badBodyBits.getD 61 0) []).evs = 1 :=
  C9_single_status_line (runFrom initState (badBodyBits.take 61)).st
    (badBodyBits.getD 61 0) [] (by decide) (by decide) (by decide)

set_option maxRecDepth 200000 in
/-- Claim C1, counterexample: on `badBodyBits` — a parity-clean type 3
header (`msglen = 4`) followed by one body frame with a flipped data bit —
the run ends cleanly with every one of the 92 stream bits consumed, yet
the global counter finishes at 62 ≠ 92: the 30 bits consumed by the
parity-failed body frame were not added to `count`. -/
theorem C1_counterexample :
    (runDecoder badBodyBits).ok = true ∧
    (runDecoder badBodyBits).st.count = 62 ∧
    badBodyBits.length = 92 ∧
    (runDecoder badBodyBits).st.count ≠ badBodyBits.length := by
  refine ⟨by decide, by decide, by decide, by decide⟩

/-- Claim C1 as amended (proved): over any stream on which the decoder
never starves inside a body read, the final global bit counter equals the
total number of bits consumed (the whole stream) minus 30 for every body
read that stopped on a parity failure — the counter misses exactly the 30
bits of each parity-failed body frame (a type 6 body read counts its
frame's 30 bits unconditionally and never contributes such a deficit). -/
theorem C1_count_vs_consumed (bits : List Nat)
    (h : (runDecoder bits).ok = true) :
    (runDecoder bits).st.count + 30 * failsOf (runDecoder bits).evs =
      bits.length := by
  have hacc := runFrom_accounting (bits.length + 1) initState bits
    (Nat.le_refl _) h
  simpa [initState] using hacc

set_option maxRecDepth 200000 in
/-- Witness for C1's amended claim at a concrete input: on `badBodyBits`
the counter (62) plus 30 for the one failed body read equals the 92
consumed bits. -/
theorem C1_count_vs_consumed_witness :
    (runDecoder badBodyBits).st.count + 30 * failsOf (runDecoder badBodyBits).evs
      = badBodyBits.length :=
  C1_count_vs_consumed badBodyBits (by decide)

/-! ## The eviction scenario, assembled from verified chunks -/

set_option maxRecDepth 200000 in
theorem evictionRun_msg1 :
    runFrom initState msg9 =
      ⟨⟨2147483606, 2147483689, 122, ⟨[((0, 0), ⟨0, 0, 0, 0, 122, 1⟩)], 5000⟩,
          ⟨[], 5000⟩, 0, 0⟩,
        [Ev.s 62 9 0 0 0 2 0, Ev.recv 9 2 2, Ev.sat 9 0 0 0 0 0 0,
          Ev.storeDump 9 [((0, 0), ⟨0, 0, 0, 0, 122, 1⟩)]], true⟩ := by
  decide

set_option maxRecDepth 200000 in
theorem evictionRun_flush :
    runFrom
        ⟨2147483606, 2147483689, 122, ⟨[((0, 0), ⟨0, 0, 0, 0, 122, 1⟩)], 5000⟩,
          ⟨[], 5000⟩, 0, 0⟩ (List.replicate 62 0) =
      ⟨⟨0, 0, 184, ⟨[((0, 0), ⟨0, 0, 0, 0, 122, 1⟩)], 5000⟩, ⟨[], 5000⟩, 0, 0⟩,
        [], true⟩ := by
  decide

set_option maxRecDepth 200000 in
theorem evictionRun_msg2 :
    runFrom ⟨0, 0, 6000, ⟨[((0, 0), ⟨0, 0, 0, 0, 122, 1⟩)], 5000⟩, ⟨[], 5000⟩, 0, 0⟩
        msg9 =
      ⟨⟨2147483606, 2147483689, 6122,
          ⟨[((0, 0), ⟨0, 0, 0, 0, 6122, 2⟩)], 5000⟩, ⟨[], 5000⟩, 6122, 0⟩,
        [Ev.s 6062 9 0 0 0 2 0, Ev.recv 9 2 2, Ev.sat 9 0 0 0 0 0 0,
          Ev.storeDump 9 [((0, 0), ⟨0, 0, 0, 0, 6122, 2⟩)]], true⟩ := by
  decide

/-- The 5816 remaining no-op zero ticks between the flush and the second
message: both shift registers are zero, so only the counter advances. -/
theorem evictionRun_zeros :
    runFrom ⟨0, 0, 184, ⟨[((0, 0), ⟨0, 0, 0, 0, 122, 1⟩)], 5000⟩, ⟨[], 5000⟩, 0, 0⟩
        (List.replicate 5816 0) =
      ⟨⟨0, 0, 6000, ⟨[((0, 0), ⟨0, 0, 0, 0, 122, 1⟩)], 5000⟩, ⟨[], 5000⟩, 0, 0⟩,
        [], true⟩ :=
  (runFrom_zeros 5816 _ rfl rfl).trans rfl

/-- Composing four successful runs whose results are known. -/
theorem runFrom_chain4 (st : DecState) (b1 b2 b3 b4 : List Nat)
    (r1 r2 r3 r4 : RunRes)
    (h1 : runFrom st b1 = r1) (h1ok : r1.ok = true)
    (h2 : runFrom r1.st b2 = r2) (h2ok : r2.ok = true)
    (h3 : runFrom r2.st b3 = r3) (h3ok : r3.ok = true)
    (h4 : runFrom r3.st b4 = r4) :
    runFrom st (b1 ++ (b2 ++ (b3 ++ b4))) =
      ⟨r4.st, r1.evs ++ (r2.evs ++ (r3.evs ++ r4.evs)), r4.ok⟩ := by
  have e1 := runFrom_append (b1.length + 1) st b1 (b2 ++ (b3 ++ b4))
    (Nat.le_refl _) (by rw [h1]; exact h1ok)
  rw [e1, h1]
  have e2 := runFrom_append (b2.length + 1) r1.st b2 (b3 ++ b4)
    (Nat.le_refl _) (by rw [h2]; exact h2ok)
  rw [e2, h2]
  have e3 := runFrom_append (b3.length + 1) r2.st b3 b4
    (Nat.le_refl _) (by rw [h3]; exact h3ok)
  rw [e3, h3, h4]

/-- The full eviction-scenario run: message, 5878 no-op zero ticks, same
message again, composed from the chunk runs.  The two store updates land
at ticks 122 and 6122, exactly 6000 bit ticks apart; the second update
finds the stale entry and increments its counter to 2 before the cleanup
(which then spares the freshly refreshed entry). -/
theorem evictionRunEq :
    runDecoder evictionBits =
      ⟨⟨2147483606, 2147483689, 6122,
          ⟨[((0, 0), ⟨0, 0, 0, 0, 6122, 2⟩)], 5000⟩, ⟨[], 5000⟩, 6122, 0⟩,
        [Ev.s 62 9 0 0 0 2 0, Ev.recv 9 2 2, Ev.sat 9 0 0 0 0 0 0,
          Ev.storeDump 9 [((0, 0), ⟨0, 0, 0, 0, 122, 1⟩)],
          Ev.s 6062 9 0 0 0 2 0, Ev.recv 9 2 2, Ev.sat 9 0 0 0 0 0 0,
          Ev.storeDump 9 [((0, 0), ⟨0, 0, 0, 0, 6122, 2⟩)]], true⟩ := by
  have hsplit : evictionBits =
      msg9 ++ (List.replicate 62 0 ++ (List.replicate 5816 0 ++ msg9)) := by
    show msg9 ++ List.replicate 5878 0 ++ msg9 = _
    rw [show (List.replicate 5878 0 : List Nat) =
      List.replicate 62 0 ++ List.replicate 5816 0 from by
        rw [← List.replicate_add], List.append_assoc, List.append_assoc]
  rw [hsplit]
  unfold runDecoder
  rw [runFrom_chain4 initState msg9 (List.replicate 62 0)
    (List.replicate 5816 0) msg9 _ _ _ _
    evictionRun_msg1 rfl evictionRun_flush rfl evictionRun_zeros rfl
    evictionRun_msg2]
  rfl

/-- Claim C3, counterexample: in the eviction scenario — two identical
type 9 messages for satellite key `(0, 0)` whose store updates are 6000
bit ticks apart, with only no-op zero ticks between them — the final store
does NOT hold the key with `update_count = 1`. -/
theorem C3_counterexample :
    ¬ ((runDecoder evictionBits).st.t9.all.map fun kv => (kv.1, kv.2.ncount))
      = [((0, 0), 1)] := by
  rw [evictionRunEq]
  decide

/-- Claim C3 as amended (proved): after the second message the store holds
exactly one entry for the key, but its `update_count` is 2: `update` runs
before `cleanup` in the type 9 block, finds the stale entry (tick 122,
horizon 6122 − 5000 = 1122) still present — nothing evicted it during the
no-op ticks, since cleanup only runs inside correction batches — and
overwrites it with an incremented counter and the current tick, after
which the cleanup spares it. -/
theorem C3_update_count_two :
    ((runDecoder evictionBits).st.t9.all.map fun kv => (kv.1, kv.2.ncount))
      = [((0, 0), 2)] ∧
    (runDecoder evictionBits).st.t9.all.length = 1 := by
  rw [evictionRunEq]
  exact ⟨rfl, rfl⟩

end Dgps
